import Mathlib

/-!
Shallow embedding of the IOC-modbus repository.

Sources embedded:
* `src/umodbus/tcp.py` — the `TCPServer` class: socket pool, round-robin
  cursor, link-down recycling, MBAP parsing, response sending.
* `src/iriv_ioc_hal.py` — the counter enable/disable HAL functions.
* `src/iriv_ioc_modbus.py` — the register-table callbacks
  (`counter_en_set_cb`, `counter_rst_set_cb`, `counter_get_cb`, `dout_set_cb`).

The umodbus modules `common.py`, `modbus.py`, `functions.py` and `const.py`
are not present under `src/`; where a claim needs them (the PDU decode step
of `Request`, the register-table accessors `get_coil`/`set_coil`/`set_ireg`,
the PDU encoders `functions.response`/`functions.exception_response`, and the
register-table read/write dispatch), the corresponding definitions below are
modelled from the spec and say so in their doc comments.

Python `bytes` values are modelled as `List Nat` (each element one byte),
`time.monotonic()` as a rational supplied by the per-call environment, and the
mutable `TCPServer` object as an explicit state record threaded through the
functions.  A Python exception escaping a function is modelled by an explicit
error value carrying the state at the point of the raise.
-/

/-- One byte of a Python `bytes` value: `l[i]` for an in-range index,
0 as a don't-care default (every use below is guarded by a length test,
matching the `struct.unpack` length requirements of the source). -/
def byte (l : List Nat) (i : Nat) : Nat := l.getD i 0

/-- Big-endian 16-bit pack, as `struct.pack('>H', n)`. -/
def pack16 (n : Nat) : List Nat := [n / 256 % 256, n % 256]

/-- A socket of the WIZNET5K socket pool, reduced to what the server code
observes: an identity (fresh sockets get fresh ids), the `_connected` flag and
the `_socket_closed` flag.  `close()` sets `_socket_closed`; a closed socket no
longer reports `_connected` (the `try/except` at `tcp.py:376-381` normalizes an
attribute error on a dead socket to `(False, True)`). -/
structure Sock where
  sid : Nat
  connected : Bool
  socketClosed : Bool
deriving DecidableEq

/-- A freshly created, bound and listening socket (`sockpool.socket()` followed
by `bind` and `listen`): not yet connected to a client, not closed. -/
def mkSock (n : Nat) : Sock := ⟨n, false, false⟩

/-- State of a `TCPServer` object (`tcp.py:196-206`).  `sidCtr` stands in for
the socket pool: it is the id the next freshly created socket receives. -/
structure TCPServer where
  socklist : List (Option Sock)
  socknum : Nat
  currentSock : Option Sock
  reqTid : Nat
  linkTimestamp : Rat
  isBound : Bool
  sidCtr : Nat
deriving DecidableEq

/-- The `TCPServer.__init__` state. -/
def TCPServer.initial : TCPServer :=
  { socklist := [], socknum := 0, currentSock := none, reqTid := 0
    linkTimestamp := 0, isBound := false, sidCtr := 0 }

/-- Per-call environment of `get_request`: the interface link status, the
current `time.monotonic()` value, and the outcome of `recv` on the inspected
socket (`none` models an `OSError`/exception during `settimeout`/`recv`). -/
structure Env where
  linkStatus : Bool
  now : Rat
  recvResult : Option (List Nat)

/-- Observable side effects of the server functions.  `tableAccess` is never
produced by the transport code embedded here; it exists so that "no register
table access happened" is expressible as a property of the event list. -/
inductive Event where
  | send (sid : Nat) (bytes : List Nat)
  | tableAccess (space addr : Nat)
deriving DecidableEq

/-- A Python exception escaping `get_request`. -/
inductive GetErr where
  | indexError
  | notBound
deriving DecidableEq

/-- `ModbusException` (raised by the `Request` constructor). -/
structure MbExc where
  function_code : Nat
  exception_code : Nat
deriving DecidableEq

/-- A successfully parsed `Request`, reduced to the unit-id-plus-PDU bytes it
was built from (`req_uid_and_pdu` at `tcp.py:407`). -/
structure ReqData where
  uidPdu : List Nat
deriving DecidableEq

deriving instance DecidableEq for Except

/-- Result of one `get_request` call: the object state after the call, the
emitted events, and the returned value or escaped exception. -/
structure GR where
  st : TCPServer
  evs : List Event
  res : Except GetErr (Option ReqData)
deriving DecidableEq

/-- The MBAP transaction id of a raw frame: its first two bytes, big-endian
(`struct.unpack('>HHH', req[:6])`, first field). -/
def tidOf (frame : List Nat) : Nat := 256 * byte frame 0 + byte frame 1

/-- The MBAP protocol id of a raw frame (bytes 2-3, big-endian). -/
def pidOf (frame : List Nat) : Nat := 256 * byte frame 2 + byte frame 3

/-- The MBAP length field of a raw frame (bytes 4-5, big-endian). -/
def lenOf (frame : List Nat) : Nat := 256 * byte frame 4 + byte frame 5

/-- `req_uid_and_pdu = req[Const.MBAP_HDR_LENGTH - 1 : Const.MBAP_HDR_LENGTH
+ req_len - 1]` with `MBAP_HDR_LENGTH = 7` (`tcp.py:407`). -/
def uidPduOf (frame : List Nat) : List Nat := (frame.drop 6).take (lenOf frame)

/-- The ADU built by `TCPServer._send` (`tcp.py:276-278`):
`struct.pack('>HHHB...', req_tid, 0, len(pdu) + 1, slave_addr, *pdu)`. -/
def mkAdu (tid slaveAddr : Nat) (pdu : List Nat) : List Nat :=
  pack16 tid ++ pack16 0 ++ pack16 (pdu.length + 1) ++ [slaveAddr % 256] ++ pdu

namespace TCPServer

/-- `TCPServer._send` (`tcp.py:267-279`): packs the stored `_req_tid` into the
MBAP header and writes the ADU to `_current_sock`.  `none` models the
`AttributeError` raised when `_current_sock` is `None`. -/
def _send (s : TCPServer) (pdu : List Nat) (slaveAddr : Nat) : Option Event :=
  s.currentSock.map fun c => Event.send c.sid (mkAdu s.reqTid slaveAddr pdu)

/-- Pack coil/discrete bits into bytes, least significant bit first.
Modelled from the spec: part of `functions.response` (umodbus/functions.py,
absent from `src/`), the byte-count-prefixed data encoding for bit reads. -/
def packBits : List Nat → List Nat
  | [] => []
  | v :: rest =>
    ((v :: rest).take 8).foldr (fun b acc => (min b 1) + 2 * acc) 0
      :: packBits ((v :: rest).drop 8)
termination_by l => l.length
decreasing_by simp; omega

/-- Modelled from the spec: `functions.response` (umodbus/functions.py, absent
from `src/`).  Per spec §4.2: byte-count-prefixed data for reads of
registers/coils; echoed address+value for single writes; echoed
address+quantity for multi-writes. -/
def functions_response (fc addr qty : Nat) (values : List Nat) : List Nat :=
  if fc = 1 ∨ fc = 2 then
    let packed := packBits values
    fc :: packed.length :: packed
  else if fc = 3 ∨ fc = 4 then
    fc :: (2 * values.length) :: values.flatMap pack16
  else if fc = 5 ∨ fc = 6 then
    fc :: (pack16 addr ++ pack16 (values.headD 0))
  else
    fc :: (pack16 addr ++ pack16 qty)

/-- Modelled from the spec: `functions.exception_response`
(umodbus/functions.py, absent from `src/`).  Per spec §4.2 and §6: the standard
exception PDU is the function code OR `0x80`, then one exception-code byte. -/
def exception_response (fc ec : Nat) : List Nat := [fc ||| 0x80, ec]

/-- `TCPServer.send_response` (`tcp.py:281-313`): encode a success PDU via
`functions.response`, then `_send` it. -/
def send_response (s : TCPServer) (slaveAddr fc addr qty : Nat)
    (values : List Nat) : Option Event :=
  s._send (functions_response fc addr qty values) slaveAddr

/-- `TCPServer.send_exception_response` (`tcp.py:315-331`). -/
def send_exception_response (s : TCPServer) (slaveAddr fc ec : Nat) :
    Option Event :=
  s._send (exception_response fc ec) slaveAddr

/-- `TCPServer.bind` (`tcp.py:227-265`): close and clear the pool; if
`max_connections < 1` return with the pool left empty; otherwise create,
bind and listen `max_connections` fresh sockets and reset the cursor. -/
def bind (s : TCPServer) (maxConnections : Int) : TCPServer :=
  let s := { s with socklist := [], currentSock := none }
  if maxConnections < 1 then s
  else
    { s with
      socklist := (List.range maxConnections.toNat).map
        fun i => some (mkSock (s.sidCtr + i))
      sidCtr := s.sidCtr + maxConnections.toNat
      socknum := 0
      isBound := true }

/-- The cursor update of `get_request` (`tcp.py:353-356`): `socknum += 1`,
wrapped to 0 when it reaches the pool length. -/
def advanceCursor (n len : Nat) : Nat := if n + 1 ≥ len then 0 else n + 1

/-- Final phase of `get_request` (`tcp.py:423-427`): construct the `Request`;
on `ModbusException` send an exception response — note the slave-address
argument is `req[0]`, the first byte of the raw frame — and return `None`. -/
def decodePhase (dec : List Nat → Except MbExc Unit) (s : TCPServer)
    (req updu : List Nat) : GR :=
  match dec updu with
  | .ok _ => ⟨s, [], .ok (some ⟨updu⟩)⟩
  | .error e =>
    ⟨s, (send_exception_response s (byte req 0) e.function_code
          e.exception_code).toList, .ok none⟩

/-- Receive-and-parse phase of `get_request` (`tcp.py:397-421`): `recv` with
the caller timeout (an `OSError` or any other exception yields `None`), drop
empty payloads, unpack the MBAP header (recording `_req_tid` in the object
state), silently discard frames with a nonzero protocol id, apply the optional
unit-address filter (`req_uid_and_pdu[0]` raises `IndexError` on an empty
slice), then decode. -/
def recvPhase (ul : Option (List Nat)) (dec : List Nat → Except MbExc Unit)
    (env : Env) (s : TCPServer) : GR :=
  match env.recvResult with
  | none => ⟨s, [], .ok none⟩
  | some req =>
    if req.length = 0 then ⟨s, [], .ok none⟩
    else if req.length < 6 then ⟨s, [], .ok none⟩
    else
      let s := { s with reqTid := tidOf req }
      if pidOf req ≠ 0 then ⟨s, [], .ok none⟩
      else
        match ul with
        | some l =>
          match (uidPduOf req).head? with
          | none => ⟨s, [], .error .indexError⟩
          | some uid =>
            if uid ∈ l then decodePhase dec s req (uidPduOf req)
            else ⟨s, [], .ok none⟩
        | none => decodePhase dec s req (uidPduOf req)

/-- Connection phase of `get_request` (`tcp.py:373-394`): if the inspected
socket is not connected and already closed, replace it in the pool with a
fresh bound/listening socket and return `None`; if not connected but not yet
closed, just return `None`; otherwise receive. -/
def connPhase (ul : Option (List Nat)) (dec : List Nat → Except MbExc Unit)
    (env : Env) (s : TCPServer) (idx : Nat) (cur : Sock) : GR :=
  if cur.connected = false then
    if cur.socketClosed = true then
      let fresh := mkSock s.sidCtr
      ⟨{ s with socklist := s.socklist.set idx (some fresh)
                currentSock := some fresh
                sidCtr := s.sidCtr + 1 }, [], .ok none⟩
    else ⟨s, [], .ok none⟩
  else recvPhase ul dec env s

/-- Link phase of `get_request` (`tcp.py:363-371`): with the link down, close
the inspected socket once the link has been down for at least 5 seconds, and
return `None` either way; with the link up, record the timestamp and go on. -/
def linkPhase (ul : Option (List Nat)) (dec : List Nat → Except MbExc Unit)
    (env : Env) (s : TCPServer) (idx : Nat) (cur : Sock) : GR :=
  if env.linkStatus = false then
    if env.now - s.linkTimestamp ≥ 5 then
      if cur.socketClosed = false then
        let closed : Sock := { cur with socketClosed := true, connected := false }
        ⟨{ s with socklist := s.socklist.set idx (some closed)
                  currentSock := some closed }, [], .ok none⟩
      else ⟨s, [], .ok none⟩
    else ⟨s, [], .ok none⟩
  else
    connPhase ul dec env { s with linkTimestamp := env.now } idx cur

/-- `TCPServer.get_request` (`tcp.py:334-427`).  The decoder `dec` stands for
the PDU-validating `Request` constructor (umodbus/common.py, absent from
`src/`); the claims below quantify over it, and the witnesses instantiate it
with the spec-modelled `specDecodePdu`.  Indexing `self._socklist[self._socknum]`
raises `IndexError` before the cursor is advanced and before the
`'Modbus TCP server not bound'` guard is reached (`tcp.py:350-359`). -/
def get_request (env : Env) (ul : Option (List Nat))
    (dec : List Nat → Except MbExc Unit) (s : TCPServer) : GR :=
  match s.socklist[s.socknum]? with
  | none => ⟨s, [], .error .indexError⟩
  | some curOpt =>
    let s1 := { s with socknum := advanceCursor s.socknum s.socklist.length
                       currentSock := curOpt }
    match curOpt with
    | none => ⟨s1, [], .error .notBound⟩
    | some cur => linkPhase ul dec env s1 s.socknum cur

end TCPServer

/-- Modelled from the spec: the PDU validation performed by the `Request`
constructor (umodbus/common.py, absent from `src/`).  Per spec §4.2: fails
with `IllegalFunction` (1) for unsupported function codes, with
`IllegalDataValue` (3) if the quantity is zero or exceeds the protocol maximum
or the byte length does not match the declared quantity.  The input is the
unit id followed by the PDU, as passed at `tcp.py:424`. -/
def specDecodePdu (updu : List Nat) : Except MbExc Unit :=
  let pdu := updu.drop 1
  let fc := byte pdu 0
  if fc = 1 ∨ fc = 2 then
    if pdu.length ≠ 5 then .error ⟨fc, 3⟩
    else
      let qty := 256 * byte pdu 3 + byte pdu 4
      if qty = 0 ∨ qty > 2000 then .error ⟨fc, 3⟩ else .ok ()
  else if fc = 3 ∨ fc = 4 then
    if pdu.length ≠ 5 then .error ⟨fc, 3⟩
    else
      let qty := 256 * byte pdu 3 + byte pdu 4
      if qty = 0 ∨ qty > 125 then .error ⟨fc, 3⟩ else .ok ()
  else if fc = 5 ∨ fc = 6 then
    if pdu.length ≠ 5 then .error ⟨fc, 3⟩ else .ok ()
  else if fc = 15 ∨ fc = 16 then
    if pdu.length < 6 then .error ⟨fc, 3⟩
    else
      let qty := 256 * byte pdu 3 + byte pdu 4
      let bytecount := byte pdu 5
      if qty = 0 ∨ pdu.length ≠ 6 + bytecount then .error ⟨fc, 3⟩ else .ok ()
  else .error ⟨fc, 1⟩

/-! ## The IOC register map and HAL (`iriv_ioc_modbus.py`, `iriv_ioc_hal.py`) -/

/-- Coil address `DO0_ADD` (`iriv_ioc_modbus.py:40`). -/
def DO0_ADD : Nat := 0x0100
/-- Coil address `DO1_ADD`. -/
def DO1_ADD : Nat := 0x0101
/-- Coil address `DO2_ADD`. -/
def DO2_ADD : Nat := 0x0102
/-- Coil address `DO3_ADD`. -/
def DO3_ADD : Nat := 0x0103

/-- Coil address `COUNT1_EN_ADD` (`iriv_ioc_modbus.py:45`). -/
def COUNT1_EN_ADD : Nat := 0x0300
/-- Coil address `COUNT3_EN_ADD`. -/
def COUNT3_EN_ADD : Nat := 0x0301
/-- Coil address `COUNT5_EN_ADD`. -/
def COUNT5_EN_ADD : Nat := 0x0302
/-- Coil address `COUNT7_EN_ADD`. -/
def COUNT7_EN_ADD : Nat := 0x0303
/-- Coil address `COUNT9_EN_ADD`. -/
def COUNT9_EN_ADD : Nat := 0x0304

/-- Coil address `COUNT1_RST_ADD` (`iriv_ioc_modbus.py:51`). -/
def COUNT1_RST_ADD : Nat := 0x0310
/-- Coil address `COUNT3_RST_ADD`. -/
def COUNT3_RST_ADD : Nat := 0x0311
/-- Coil address `COUNT5_RST_ADD`. -/
def COUNT5_RST_ADD : Nat := 0x0312
/-- Coil address `COUNT7_RST_ADD`. -/
def COUNT7_RST_ADD : Nat := 0x0313
/-- Coil address `COUNT9_RST_ADD`. -/
def COUNT9_RST_ADD : Nat := 0x0314

/-- Input-register address `COUNT1_H_ADD` (`iriv_ioc_modbus.py:79`). -/
def COUNT1_H_ADD : Nat := 0x0400
/-- Input-register address `COUNT1_L_ADD`. -/
def COUNT1_L_ADD : Nat := 0x0401
/-- Input-register address `COUNT3_H_ADD`. -/
def COUNT3_H_ADD : Nat := 0x0402
/-- Input-register address `COUNT5_H_ADD`. -/
def COUNT5_H_ADD : Nat := 0x0404
/-- Input-register address `COUNT7_H_ADD`. -/
def COUNT7_H_ADD : Nat := 0x0406
/-- Input-register address `COUNT9_H_ADD`. -/
def COUNT9_H_ADD : Nat := 0x0408

/-- The counter channels, in the order the callbacks handle them
(`iriv_ioc_modbus.py:211-301`). -/
def chanList : List Int := [1, 3, 5, 7, 9]

/-- The enable-coil address of a counter channel. -/
def countEnAdd : Int → Nat
  | 1 => COUNT1_EN_ADD
  | 3 => COUNT3_EN_ADD
  | 5 => COUNT5_EN_ADD
  | 7 => COUNT7_EN_ADD
  | 9 => COUNT9_EN_ADD
  | _ => 0

/-- The reset-coil address of a counter channel. -/
def countRstAdd : Int → Nat
  | 1 => COUNT1_RST_ADD
  | 3 => COUNT3_RST_ADD
  | 5 => COUNT5_RST_ADD
  | 7 => COUNT7_RST_ADD
  | 9 => COUNT9_RST_ADD
  | _ => 0

/-- The high-word input-register address of a counter channel. -/
def countHAdd : Int → Nat
  | 1 => COUNT1_H_ADD
  | 3 => COUNT3_H_ADD
  | 5 => COUNT5_H_ADD
  | 7 => COUNT7_H_ADD
  | 9 => COUNT9_H_ADD
  | _ => 0

/-- The HAL state (`iriv_ioc_hal.py`): the five counter globals — `none`
models a disabled counter (Python `None`), `some n` an enabled
`countio.Counter` whose current hardware count is `n` — and the four digital
output values driven by `dout_set_cb`. -/
structure HalState where
  count1 : Option Nat
  count3 : Option Nat
  count5 : Option Nat
  count7 : Option Nat
  count9 : Option Nat
  dout0 : Nat
  dout1 : Nat
  dout2 : Nat
  dout3 : Nat
deriving DecidableEq

namespace Hal

/-- The counter global of a channel (`count1`, `count3`, ...). -/
def halCount (h : HalState) : Int → Option Nat
  | 1 => h.count1
  | 3 => h.count3
  | 5 => h.count5
  | 7 => h.count7
  | 9 => h.count9
  | _ => none

/-- Overwrite the counter global of a channel. -/
def halSetCount (h : HalState) : Int → Option Nat → HalState
  | 1, v => { h with count1 := v }
  | 3, v => { h with count3 := v }
  | 5, v => { h with count5 := v }
  | 7, v => { h with count7 := v }
  | 9, v => { h with count9 := v }
  | _, _ => h

/-- `Hal.en_counter` (`iriv_ioc_hal.py:126-158`): for a channel in
{1,3,5,7,9} whose counter global is `None`, replace the digital input with a
fresh `countio.Counter` (hardware count 0) and return `True`; in every other
case fall through and return `False`.  The Python `if`/`return` chain is an
`if`/`else` chain. -/
def en_counter (channel : Int) (h : HalState) : Bool × HalState :=
  if channel = 1 ∧ h.count1 = none then (true, { h with count1 := some 0 })
  else if channel = 3 ∧ h.count3 = none then (true, { h with count3 := some 0 })
  else if channel = 5 ∧ h.count5 = none then (true, { h with count5 := some 0 })
  else if channel = 7 ∧ h.count7 = none then (true, { h with count7 := some 0 })
  else if channel = 9 ∧ h.count9 = none then (true, { h with count9 := some 0 })
  else (false, h)

/-- `Hal.dis_counter` (`iriv_ioc_hal.py:164-215`): for a channel in
{1,3,5,7,9} whose counter global is not `None`, deinitialize it (back to
`None`, the pin becomes a digital input again) and return `True`; in every
other case fall through and return `False`. -/
def dis_counter (channel : Int) (h : HalState) : Bool × HalState :=
  if channel = 1 ∧ h.count1 ≠ none then (true, { h with count1 := none })
  else if channel = 3 ∧ h.count3 ≠ none then (true, { h with count3 := none })
  else if channel = 5 ∧ h.count5 ≠ none then (true, { h with count5 := none })
  else if channel = 7 ∧ h.count7 ≠ none then (true, { h with count7 := none })
  else if channel = 9 ∧ h.count9 ≠ none then (true, { h with count9 := none })
  else (false, h)

end Hal

/-- The register-table values the embedded callbacks touch: coils are single
bits (spec §3, RegisterEntry: "a single bit for Coil/DiscreteInput"), input
registers are 16-bit words addressed individually. -/
structure RegState where
  coils : Nat → Bool
  iregs : Nat → Nat

/-- Modelled from the spec: `Modbus.get_coil` of the umodbus register table
(umodbus/modbus.py, absent from `src/`): the stored bit as the integer the
callbacks compare against (`== 1` / `== 0`). -/
def get_coil (r : RegState) (addr : Nat) : Nat := if r.coils addr then 1 else 0

/-- Modelled from the spec: `Modbus.set_coil` (umodbus/modbus.py, absent from
`src/`): store the value as a single bit. -/
def set_coil (r : RegState) (addr v : Nat) : RegState :=
  { r with coils := fun a => if a = addr then v ≠ 0 else r.coils a }

/-- Store a word sequence at consecutive addresses, first element at the base
address (most-significant word first, spec §3). -/
def setWords : (Nat → Nat) → Nat → List Nat → (Nat → Nat)
  | f, _, [] => f
  | f, addr, v :: vs => setWords (fun a => if a = addr then v else f a) (addr + 1) vs

/-- Modelled from the spec: `Modbus.set_ireg` (umodbus/modbus.py, absent from
`src/`): store the given words at consecutive input-register addresses,
most-significant word first. -/
def set_ireg (r : RegState) (addr : Nat) (vals : List Nat) : RegState :=
  { r with iregs := setWords r.iregs addr vals }

/-- Combined state the `iriv_ioc_modbus.py` callbacks operate on: the register
table of the `client` object plus the HAL globals. -/
structure IocState where
  regs : RegState
  hal : HalState

namespace Ioc
open Hal

/-- `dout_set_cb` (`iriv_ioc_modbus.py:187-192`): drive the four digital
outputs from the DO coil values. -/
def dout_set_cb (s : IocState) : IocState :=
  { s with hal := { s.hal with
      dout0 := get_coil s.regs DO0_ADD
      dout1 := get_coil s.regs DO1_ADD
      dout2 := get_coil s.regs DO2_ADD
      dout3 := get_coil s.regs DO3_ADD } }

/-- One per-channel block of `counter_en_set_cb` (`iriv_ioc_modbus.py:214-218`
and its four copies): if the enable coil reads 1, call `Hal.en_counter` and —
only when it returns `True` — clear the counter value registers; otherwise
call `Hal.dis_counter`. -/
def counterEnStep (ch : Int) (enA hA : Nat) (s : IocState) : IocState :=
  if get_coil s.regs enA = 1 then
    if (Hal.en_counter ch s.hal).1 = true then
      { s with hal := (Hal.en_counter ch s.hal).2
               regs := set_ireg s.regs hA [0, 0] }
    else { s with hal := (Hal.en_counter ch s.hal).2 }
  else { s with hal := (Hal.dis_counter ch s.hal).2 }

/-- `counter_en_set_cb` (`iriv_ioc_modbus.py:211-246`): the five per-channel
blocks in source order. -/
def counter_en_set_cb (s : IocState) : IocState :=
  counterEnStep 9 COUNT9_EN_ADD COUNT9_H_ADD
    (counterEnStep 7 COUNT7_EN_ADD COUNT7_H_ADD
      (counterEnStep 5 COUNT5_EN_ADD COUNT5_H_ADD
        (counterEnStep 3 COUNT3_EN_ADD COUNT3_H_ADD
          (counterEnStep 1 COUNT1_EN_ADD COUNT1_H_ADD s))))

/-- One per-channel block of `counter_rst_set_cb` (`iriv_ioc_modbus.py:254-257`
and its four copies): if the reset coil reads 1, clear the coil, reset the
hardware counter (`Hal.countX.reset()` — an `AttributeError` on a disabled
counter, `.error` with the state at the raise), and clear the counter value
registers. -/
def counterRstStep (ch : Int) (rstA hA : Nat) (s : IocState) :
    Except IocState IocState :=
  if get_coil s.regs rstA = 1 then
    match Hal.halCount s.hal ch with
    | none => .error { s with regs := set_coil s.regs rstA 0 }
    | some _ =>
      .ok { s with hal := Hal.halSetCount s.hal ch (some 0)
                   regs := set_ireg (set_coil s.regs rstA 0) hA [0, 0] }
  else .ok s

/-- `counter_rst_set_cb` (`iriv_ioc_modbus.py:251-277`): the five per-channel
blocks in source order; an exception in one block aborts the rest. -/
def counter_rst_set_cb (s : IocState) : Except IocState IocState :=
  match counterRstStep 1 COUNT1_RST_ADD COUNT1_H_ADD s with
  | .error e => .error e
  | .ok s =>
  match counterRstStep 3 COUNT3_RST_ADD COUNT3_H_ADD s with
  | .error e => .error e
  | .ok s =>
  match counterRstStep 5 COUNT5_RST_ADD COUNT5_H_ADD s with
  | .error e => .error e
  | .ok s =>
  match counterRstStep 7 COUNT7_RST_ADD COUNT7_H_ADD s with
  | .error e => .error e
  | .ok s => counterRstStep 9 COUNT9_RST_ADD COUNT9_H_ADD s

/-- One per-channel block of `counter_get_cb` (`iriv_ioc_modbus.py:283-285`
and its four copies): if the enable coil reads 1, read the hardware count
(`Hal.countX.count` — an `AttributeError` on a disabled counter) and store the
pair `[count >> 8, count & 0xffff]` in the counter value registers. -/
def counterGetStep (ch : Int) (enA hA : Nat) (s : IocState) :
    Except IocState IocState :=
  if get_coil s.regs enA = 1 then
    match halCount s.hal ch with
    | none => .error s
    | some c => .ok { s with regs := set_ireg s.regs hA [c >>> 8, c &&& 0xffff] }
  else .ok s

/-- `counter_get_cb` (`iriv_ioc_modbus.py:282-301`): the five per-channel
blocks in source order; an exception in one block aborts the rest. -/
def counter_get_cb (s : IocState) : Except IocState IocState :=
  match counterGetStep 1 COUNT1_EN_ADD COUNT1_H_ADD s with
  | .error e => .error e
  | .ok s =>
  match counterGetStep 3 COUNT3_EN_ADD COUNT3_H_ADD s with
  | .error e => .error e
  | .ok s =>
  match counterGetStep 5 COUNT5_EN_ADD COUNT5_H_ADD s with
  | .error e => .error e
  | .ok s =>
  match counterGetStep 7 COUNT7_EN_ADD COUNT7_H_ADD s with
  | .error e => .error e
  | .ok s => counterGetStep 9 COUNT9_EN_ADD COUNT9_H_ADD s

/-- Modelled from the spec: the Register Table coil write path of the umodbus
server (umodbus/modbus.py, absent from `src/`).  Per spec §4.1, a write first
stores the value, then invokes the entry's on-write hook; the hook of each
coil is the one registered in `register_definitions`
(`iriv_ioc_modbus.py:311-327`).  `none`: the address resolves to no entry
(IllegalDataAddress) or the hook raised. -/
def writeCoil (s : IocState) (addr v : Nat) : Option IocState :=
  let s1 : IocState := { s with regs := set_coil s.regs addr v }
  if addr = DO0_ADD ∨ addr = DO1_ADD ∨ addr = DO2_ADD ∨ addr = DO3_ADD then
    some (dout_set_cb s1)
  else if addr = COUNT1_EN_ADD ∨ addr = COUNT3_EN_ADD ∨ addr = COUNT5_EN_ADD
      ∨ addr = COUNT7_EN_ADD ∨ addr = COUNT9_EN_ADD then
    some (counter_en_set_cb s1)
  else if addr = COUNT1_RST_ADD ∨ addr = COUNT3_RST_ADD ∨ addr = COUNT5_RST_ADD
      ∨ addr = COUNT7_RST_ADD ∨ addr = COUNT9_RST_ADD then
    match counter_rst_set_cb s1 with
    | .ok s2 => some s2
    | .error _ => none
  else none

/-- Modelled from the spec: the Register Table read path of the umodbus server
(umodbus/modbus.py, absent from `src/`) for the counter input-register
entries.  Per spec §4.1, a read resolving to a defined entry invokes the
entry's on-read hook — `counter_get_cb` for the `COUNTx` entries, each of
(base address, length 2) per `register_definitions`
(`iriv_ioc_modbus.py:354-358`) — then returns the latest stored words.
`none`: the address/count pair is outside the modelled entries, or the hook
raised. -/
def readInputRegisters (s : IocState) (addr count : Nat) :
    Option (List Nat × IocState) :=
  if (addr = COUNT1_H_ADD ∨ addr = COUNT3_H_ADD ∨ addr = COUNT5_H_ADD
      ∨ addr = COUNT7_H_ADD ∨ addr = COUNT9_H_ADD) ∧ count = 2 then
    match counter_get_cb s with
    | .error _ => none
    | .ok s2 => some ([s2.regs.iregs addr, s2.regs.iregs (addr + 1)], s2)
  else none

end Ioc

/-! ## Iterated polling (for the round-robin claim) -/

/-- The server state after a sequence of `get_request` calls, one per
environment (any returned request or exception of a call is handled by the
caller; the object state persists). -/
def pollIter (ul : Option (List Nat)) (dec : List Nat → Except MbExc Unit) :
    List Env → TCPServer → TCPServer
  | [], s => s
  | e :: rest, s => pollIter ul dec rest (TCPServer.get_request e ul dec s).st

/-- The pool index inspected by the `(k+1)`-st call of a call sequence: the
cursor value after the first `k` calls. -/
def inspectedIdx (ul : Option (List Nat)) (dec : List Nat → Except MbExc Unit)
    (envs : List Env) (s : TCPServer) (k : Nat) : Nat :=
  (pollIter ul dec (envs.take k) s).socknum

/-! ## Helper lemmas: the TCP server -/

namespace TCPServer

lemma advanceCursor_eq_mod (n len : Nat) (h : n < len) :
    advanceCursor n len = (n + 1) % len := by
  unfold advanceCursor
  split
  · have he : n + 1 = len := by omega
    simp [he]
  · have hl : n + 1 < len := by omega
    simp [Nat.mod_eq_of_lt hl]

lemma decodePhase_st (dec : List Nat → Except MbExc Unit) (s : TCPServer)
    (req updu : List Nat) : (decodePhase dec s req updu).st = s := by
  unfold decodePhase
  split <;> rfl

lemma recvPhase_st_socknum (ul : Option (List Nat))
    (dec : List Nat → Except MbExc Unit) (env : Env) (s : TCPServer) :
    (recvPhase ul dec env s).st.socknum = s.socknum ∧
    (recvPhase ul dec env s).st.socklist = s.socklist := by
  unfold recvPhase decodePhase
  repeat' split
  all_goals exact ⟨rfl, rfl⟩

lemma connPhase_st_socknum (ul : Option (List Nat))
    (dec : List Nat → Except MbExc Unit) (env : Env) (s : TCPServer)
    (idx : Nat) (cur : Sock) :
    (connPhase ul dec env s idx cur).st.socknum = s.socknum ∧
    (connPhase ul dec env s idx cur).st.socklist.length = s.socklist.length ∧
    ∀ j, j ≠ idx →
      (connPhase ul dec env s idx cur).st.socklist[j]? = s.socklist[j]? := by
  unfold connPhase
  have hr := recvPhase_st_socknum ul dec env s
  repeat' split
  · exact ⟨by simp, by simp, fun j hj => by simp [List.getElem?_set_ne (by omega : idx ≠ j)]⟩
  · exact ⟨rfl, rfl, fun _ _ => rfl⟩
  · exact ⟨hr.1, by rw [hr.2], fun _ _ => by rw [hr.2]⟩

lemma linkPhase_st_socknum (ul : Option (List Nat))
    (dec : List Nat → Except MbExc Unit) (env : Env) (s : TCPServer)
    (idx : Nat) (cur : Sock) :
    (linkPhase ul dec env s idx cur).st.socknum = s.socknum ∧
    (linkPhase ul dec env s idx cur).st.socklist.length = s.socklist.length ∧
    ∀ j, j ≠ idx →
      (linkPhase ul dec env s idx cur).st.socklist[j]? = s.socklist[j]? := by
  unfold linkPhase
  have hc := connPhase_st_socknum ul dec env
    { s with linkTimestamp := env.now } idx cur
  repeat' split
  · exact ⟨by simp, by simp, fun j hj => by simp [List.getElem?_set_ne (by omega : idx ≠ j)]⟩
  · exact ⟨rfl, rfl, fun _ _ => rfl⟩
  · exact ⟨rfl, rfl, fun _ _ => rfl⟩
  · exact ⟨hc.1, hc.2.1, hc.2.2⟩

/-- One `get_request` call on a well-formed pool: the cursor advances by one
modulo the pool length, the pool length is preserved, and only the inspected
slot can change. -/
lemma get_request_cursor (env : Env) (ul : Option (List Nat))
    (dec : List Nat → Except MbExc Unit) (s : TCPServer)
    (h : s.socknum < s.socklist.length) :
    (get_request env ul dec s).st.socknum = (s.socknum + 1) % s.socklist.length ∧
    (get_request env ul dec s).st.socklist.length = s.socklist.length ∧
    ∀ j, j ≠ s.socknum →
      (get_request env ul dec s).st.socklist[j]? = s.socklist[j]? := by
  unfold get_request
  have hlt : s.socknum < s.socklist.length := h
  cases hx : s.socklist[s.socknum]? with
  | none =>
    exact absurd (List.getElem?_eq_none_iff.mp hx) (by omega)
  | some curOpt =>
    cases curOpt with
    | none =>
      simp [advanceCursor_eq_mod _ _ h]
    | some cur =>
      have hl := linkPhase_st_socknum ul dec env
        { s with socknum := advanceCursor s.socknum s.socklist.length
                 currentSock := some cur } s.socknum cur
      simp only []
      refine ⟨?_, ?_, ?_⟩
      · rw [hl.1]; simp [advanceCursor_eq_mod _ _ h]
      · rw [hl.2.1]
      · exact fun j hj => by rw [hl.2.2 j hj]

lemma pollIter_socknum (ul : Option (List Nat))
    (dec : List Nat → Except MbExc Unit) (envs : List Env) (s : TCPServer)
    (h : s.socknum < s.socklist.length) :
    (pollIter ul dec envs s).socknum = (s.socknum + envs.length) % s.socklist.length ∧
    (pollIter ul dec envs s).socklist.length = s.socklist.length := by
  induction envs generalizing s with
  | nil => simp [pollIter, Nat.mod_eq_of_lt h]
  | cons e rest ih =>
    have hstep := get_request_cursor e ul dec s h
    have hpos : 0 < s.socklist.length := by omega
    have h' : (get_request e ul dec s).st.socknum <
        (get_request e ul dec s).st.socklist.length := by
      rw [hstep.1, hstep.2.1]
      exact Nat.mod_lt _ hpos
    have hih := ih ((get_request e ul dec s).st) h'
    refine ⟨?_, ?_⟩
    · calc (pollIter ul dec (e :: rest) s).socknum
          = ((get_request e ul dec s).st.socknum + rest.length) %
              (get_request e ul dec s).st.socklist.length := by
            simp only [pollIter]
            exact hih.1
        _ = ((s.socknum + 1) % s.socklist.length + rest.length) %
              s.socklist.length := by rw [hstep.1, hstep.2.1]
        _ = (s.socknum + 1 + rest.length) % s.socklist.length :=
            Nat.mod_add_mod _ _ _
        _ = (s.socknum + (e :: rest).length) % s.socklist.length := by
            congr 1
            simp
            omega
    · simp only [pollIter]
      rw [hih.2, hstep.2.1]

end TCPServer

/-! ## Claims about the TCP server -/

/-- C8: with an empty socket pool (the initial state, or the pool after a
`bind` with `max_connections < 1`), `get_request` raises `IndexError` from
`self._socklist[self._socknum]`, instead of returning no-request or reaching
the `'Modbus TCP server not bound'` guard. -/
theorem get_request_empty_pool_index_error :
    (∀ env ul dec s, s.socklist = [] →
      TCPServer.get_request env ul dec s = ⟨s, [], .error .indexError⟩)
    ∧ TCPServer.initial.socklist = []
    ∧ (∀ s maxConnections, maxConnections < 1 →
        (TCPServer.bind s maxConnections).socklist = []) := by
  refine ⟨fun env ul dec s hs => ?_, rfl, fun s m hm => ?_⟩
  · unfold TCPServer.get_request
    rw [hs]
    simp
  · unfold TCPServer.bind
    rw [if_pos hm]

/-- C8 witness: a `get_request` on the freshly constructed server raises
`IndexError`, and a `bind` with `max_connections = 0` leaves the pool empty. -/
theorem get_request_empty_pool_index_error_witness :
    TCPServer.get_request ⟨true, 0, none⟩ none specDecodePdu TCPServer.initial
      = ⟨TCPServer.initial, [], .error .indexError⟩
    ∧ (TCPServer.bind TCPServer.initial 0).socklist = [] := by
  refine ⟨get_request_empty_pool_index_error.1 ⟨true, 0, none⟩ none specDecodePdu
    TCPServer.initial rfl, ?_⟩
  exact get_request_empty_pool_index_error.2.2 TCPServer.initial 0 (by decide)

/-- C5: a received TCP frame with nonzero MBAP protocol id is silently
discarded — `get_request` returns `None`, sends nothing, and raises nothing. -/
theorem get_request_nonzero_pid_silent (env : Env) (ul : Option (List Nat))
    (dec : List Nat → Except MbExc Unit) (s : TCPServer) (sock : Sock)
    (frame : List Nat)
    (hsock : s.socklist[s.socknum]? = some (some sock))
    (hlink : env.linkStatus = true)
    (hconn : sock.connected = true)
    (hrecv : env.recvResult = some frame)
    (hlen : 6 ≤ frame.length)
    (hpid : pidOf frame ≠ 0) :
    (TCPServer.get_request env ul dec s).res = .ok none ∧
    (TCPServer.get_request env ul dec s).evs = [] := by
  have h0 : ¬ frame.length = 0 := by omega
  have h6 : ¬ frame.length < 6 := by omega
  unfold TCPServer.get_request TCPServer.linkPhase TCPServer.connPhase
    TCPServer.recvPhase
  rw [hsock]
  simp [hlink, hconn, hrecv, h0, h6, hpid]

/-- C5 witness: a concrete bound server receiving a frame with protocol id 5
returns no request and sends nothing. -/
theorem get_request_nonzero_pid_silent_witness :
    (TCPServer.get_request ⟨true, 1, some [0, 1, 0, 5, 0, 2, 255, 4]⟩ none
      specDecodePdu ⟨[some ⟨0, true, false⟩], 0, none, 0, 0, true, 1⟩).res
      = .ok none ∧
    (TCPServer.get_request ⟨true, 1, some [0, 1, 0, 5, 0, 2, 255, 4]⟩ none
      specDecodePdu ⟨[some ⟨0, true, false⟩], 0, none, 0, 0, true, 1⟩).evs
      = [] := by
  exact get_request_nonzero_pid_silent ⟨true, 1, some [0, 1, 0, 5, 0, 2, 255, 4]⟩
    none specDecodePdu ⟨[some ⟨0, true, false⟩], 0, none, 0, 0, true, 1⟩
    ⟨0, true, false⟩ [0, 1, 0, 5, 0, 2, 255, 4]
    rfl rfl rfl rfl (by decide) (by decide)

lemma mod_shift_inj (s0 n j1 j2 : Nat) (h1 : j1 < n) (h2 : j2 < n)
    (h : (s0 + j1) % n = (s0 + j2) % n) : j1 = j2 := by
  have hc : j1 ≡ j2 [MOD n] := Nat.ModEq.add_left_cancel' s0 h
  unfold Nat.ModEq at hc
  rw [Nat.mod_eq_of_lt h1, Nat.mod_eq_of_lt h2] at hc
  exact hc

lemma mod_shift_surj (s0 n i : Nat) (hi : i < n) :
    ∃ j, j < n ∧ (s0 + j) % n = i := by
  have hpos : 0 < n := by omega
  have hr : s0 % n < n := Nat.mod_lt _ hpos
  by_cases hle : s0 % n ≤ i
  · refine ⟨i - s0 % n, by omega, ?_⟩
    rw [Nat.add_mod, Nat.mod_eq_of_lt (show i - s0 % n < n by omega)]
    rw [show s0 % n + (i - s0 % n) = i by omega]
    exact Nat.mod_eq_of_lt hi
  · refine ⟨n + i - s0 % n, by omega, ?_⟩
    rw [Nat.add_mod, Nat.mod_eq_of_lt (show n + i - s0 % n < n by omega)]
    rw [show s0 % n + (n + i - s0 % n) = n + i by omega]
    rw [Nat.add_mod_left]
    exact Nat.mod_eq_of_lt hi

/-- C6: on a non-empty pool each `get_request` call inspects exactly one
socket — it advances the cursor by one modulo the pool length and leaves all
slots other than the inspected one untouched — so the indices inspected by `n`
consecutive calls are `(socknum + k) % n` for `k = 0..n-1`, which are pairwise
distinct and cover every pool slot. -/
theorem get_request_round_robin (ul : Option (List Nat))
    (dec : List Nat → Except MbExc Unit) (s : TCPServer)
    (hwf : s.socknum < s.socklist.length) :
    (∀ env,
      (TCPServer.get_request env ul dec s).st.socknum =
          (s.socknum + 1) % s.socklist.length ∧
      (TCPServer.get_request env ul dec s).st.socklist.length =
          s.socklist.length ∧
      ∀ j, j ≠ s.socknum →
        (TCPServer.get_request env ul dec s).st.socklist[j]? = s.socklist[j]?)
    ∧ (∀ envs k, k ≤ envs.length →
        inspectedIdx ul dec envs s k = (s.socknum + k) % s.socklist.length)
    ∧ (∀ j1 j2, j1 < s.socklist.length → j2 < s.socklist.length →
        (s.socknum + j1) % s.socklist.length =
          (s.socknum + j2) % s.socklist.length →
        j1 = j2)
    ∧ (∀ i, i < s.socklist.length →
        ∃ j, j < s.socklist.length ∧
          (s.socknum + j) % s.socklist.length = i) := by
  refine ⟨fun env => TCPServer.get_request_cursor env ul dec s hwf,
    fun envs k hk => ?_,
    fun j1 j2 h1 h2 h => mod_shift_inj s.socknum _ j1 j2 h1 h2 h,
    fun i hi => mod_shift_surj s.socknum _ i hi⟩
  unfold inspectedIdx
  have hp := TCPServer.pollIter_socknum ul dec (envs.take k) s hwf
  rw [hp.1, List.length_take, Nat.min_eq_left hk]

/-- C6 witness: on a concrete three-socket pool, four consecutive polls
inspect slots 0, 1, 2 and then 0 again. -/
theorem get_request_round_robin_witness :
    inspectedIdx none specDecodePdu
      [⟨true, 0, none⟩, ⟨true, 0, none⟩, ⟨true, 0, none⟩]
      ⟨[some (mkSock 0), some (mkSock 1), some (mkSock 2)], 0, none, 0, 0, true, 3⟩
      0 = 0
    ∧ inspectedIdx none specDecodePdu
      [⟨true, 0, none⟩, ⟨true, 0, none⟩, ⟨true, 0, none⟩]
      ⟨[some (mkSock 0), some (mkSock 1), some (mkSock 2)], 0, none, 0, 0, true, 3⟩
      1 = 1
    ∧ inspectedIdx none specDecodePdu
      [⟨true, 0, none⟩, ⟨true, 0, none⟩, ⟨true, 0, none⟩]
      ⟨[some (mkSock 0), some (mkSock 1), some (mkSock 2)], 0, none, 0, 0, true, 3⟩
      2 = 2
    ∧ inspectedIdx none specDecodePdu
      [⟨true, 0, none⟩, ⟨true, 0, none⟩, ⟨true, 0, none⟩]
      ⟨[some (mkSock 0), some (mkSock 1), some (mkSock 2)], 0, none, 0, 0, true, 3⟩
      3 = 0 := by
  have h := get_request_round_robin none specDecodePdu
    ⟨[some (mkSock 0), some (mkSock 1), some (mkSock 2)], 0, none, 0, 0, true, 3⟩
    (by simp)
  refine ⟨?_, ?_, ?_, ?_⟩
  · have := h.2.1 [⟨true, 0, none⟩, ⟨true, 0, none⟩, ⟨true, 0, none⟩] 0 (by simp)
    simpa using this
  · have := h.2.1 [⟨true, 0, none⟩, ⟨true, 0, none⟩, ⟨true, 0, none⟩] 1 (by simp)
    simpa using this
  · have := h.2.1 [⟨true, 0, none⟩, ⟨true, 0, none⟩, ⟨true, 0, none⟩] 2 (by simp)
    simpa using this
  · have := h.2.1 [⟨true, 0, none⟩, ⟨true, 0, none⟩, ⟨true, 0, none⟩] 3 (by simp)
    simpa using this

/-- C3: polling while the link is down returns no request and keeps the
inspected socket open if the link has been down for less than 5 seconds,
closes it once 5 seconds have elapsed since the last link-up poll, and a
subsequent poll of that slot (the socket now closed and unconnected, the link
back up) replaces it in the pool with a fresh bound/listening socket. -/
theorem get_request_link_down_recycling (ul : Option (List Nat))
    (dec : List Nat → Except MbExc Unit) (s : TCPServer) (sock : Sock)
    (hsock : s.socklist[s.socknum]? = some (some sock)) :
    (∀ env : Env, env.linkStatus = false → env.now - s.linkTimestamp < 5 →
      (TCPServer.get_request env ul dec s).res = .ok none ∧
      (TCPServer.get_request env ul dec s).evs = [] ∧
      (TCPServer.get_request env ul dec s).st.socklist = s.socklist)
    ∧ (∀ env : Env, env.linkStatus = false → 5 ≤ env.now - s.linkTimestamp →
      (TCPServer.get_request env ul dec s).res = .ok none ∧
      (TCPServer.get_request env ul dec s).evs = [] ∧
      ∃ c, (TCPServer.get_request env ul dec s).st.socklist[s.socknum]? =
          some (some c) ∧ c.socketClosed = true)
    ∧ (∀ env : Env, env.linkStatus = true → sock.connected = false →
        sock.socketClosed = true →
      (TCPServer.get_request env ul dec s).res = .ok none ∧
      (TCPServer.get_request env ul dec s).evs = [] ∧
      (TCPServer.get_request env ul dec s).st.socklist[s.socknum]? =
          some (some (mkSock s.sidCtr)) ∧
      (mkSock s.sidCtr).connected = false ∧
      (mkSock s.sidCtr).socketClosed = false ∧
      (TCPServer.get_request env ul dec s).st.sidCtr = s.sidCtr + 1) := by
  have hlt : s.socknum < s.socklist.length := by
    by_contra hc
    rw [List.getElem?_eq_none (by omega)] at hsock
    exact absurd hsock (by simp)
  refine ⟨fun env hlink hlt5 => ?_, fun env hlink hge => ?_,
    fun env hlink hconn hclosed => ?_⟩
  · have hng : ¬ (env.now - s.linkTimestamp ≥ 5) := not_le.mpr hlt5
    unfold TCPServer.get_request TCPServer.linkPhase
    rw [hsock]
    simp [hlink, hng]
  · unfold TCPServer.get_request TCPServer.linkPhase
    rw [hsock]
    by_cases hc : sock.socketClosed
    · simp only [hlink]
      simp [hge, hc]
      exact ⟨sock, hsock, hc⟩
    · simp only [hlink]
      simp [hge, hc]
      exact ⟨⟨sock.sid, false, true⟩, by rw [List.getElem?_set_self hlt], rfl⟩
  · unfold TCPServer.get_request TCPServer.linkPhase TCPServer.connPhase
    rw [hsock]
    simp [hlink, hconn, hclosed]
    rw [List.getElem?_set_self hlt]
    simp [mkSock]

/-- C3 witness: with the link down 4.9 s the concrete socket stays open and no
request is returned; at 5.0 s it is closed; a later poll of the slot with the
link back up replaces the closed socket by a fresh listening one. -/
theorem get_request_link_down_recycling_witness :
    ((TCPServer.get_request ⟨false, 49/10, none⟩ none specDecodePdu
        ⟨[some ⟨0, false, false⟩], 0, none, 0, 0, true, 5⟩).res = .ok none
      ∧ (TCPServer.get_request ⟨false, 49/10, none⟩ none specDecodePdu
        ⟨[some ⟨0, false, false⟩], 0, none, 0, 0, true, 5⟩).st.socklist =
          [some ⟨0, false, false⟩])
    ∧ (∃ c, (TCPServer.get_request ⟨false, 5, none⟩ none specDecodePdu
          ⟨[some ⟨0, false, false⟩], 0, none, 0, 0, true, 5⟩).st.socklist[(0 : Nat)]?
            = some (some c) ∧ c.socketClosed = true)
    ∧ ((TCPServer.get_request ⟨true, 6, none⟩ none specDecodePdu
          ⟨[some ⟨7, false, true⟩], 0, none, 0, 0, true, 5⟩).st.socklist[(0 : Nat)]?
            = some (some (mkSock 5))
      ∧ (TCPServer.get_request ⟨true, 6, none⟩ none specDecodePdu
          ⟨[some ⟨7, false, true⟩], 0, none, 0, 0, true, 5⟩).st.sidCtr = 6) := by
  have hA := (get_request_link_down_recycling none specDecodePdu
      ⟨[some ⟨0, false, false⟩], 0, none, 0, 0, true, 5⟩ ⟨0, false, false⟩ rfl).1
      ⟨false, 49/10, none⟩ rfl (by norm_num)
  have hB := (get_request_link_down_recycling none specDecodePdu
      ⟨[some ⟨0, false, false⟩], 0, none, 0, 0, true, 5⟩ ⟨0, false, false⟩ rfl).2.1
      ⟨false, 5, none⟩ rfl (by norm_num)
  have hC := (get_request_link_down_recycling none specDecodePdu
      ⟨[some ⟨7, false, true⟩], 0, none, 0, 0, true, 5⟩ ⟨7, false, true⟩ rfl).2.2
      ⟨true, 6, none⟩ rfl rfl rfl
  exact ⟨⟨hA.1, hA.2.2⟩, hB.2.2, hC.2.2.1, hC.2.2.2.2.2⟩

lemma TCPServer.recvPhase_ok_some (ul : Option (List Nat))
    (dec : List Nat → Except MbExc Unit) (env : Env) (s : TCPServer)
    (r : ReqData) (h : (TCPServer.recvPhase ul dec env s).res = .ok (some r)) :
    ∃ frame, env.recvResult = some frame ∧
      TCPServer.recvPhase ul dec env s =
        TCPServer.decodePhase dec { s with reqTid := tidOf frame } frame
          (uidPduOf frame) := by
  unfold TCPServer.recvPhase at h ⊢
  cases henv : env.recvResult with
  | none =>
    simp only [henv] at h
    exact absurd h (by simp)
  | some req =>
    simp only [henv] at h ⊢
    refine ⟨req, rfl, ?_⟩
    by_cases h0 : req.length = 0
    · rw [if_pos h0] at h
      exact absurd h (by simp)
    rw [if_neg h0] at h ⊢
    by_cases h6 : req.length < 6
    · rw [if_pos h6] at h
      exact absurd h (by simp)
    rw [if_neg h6] at h ⊢
    by_cases hp : pidOf req ≠ 0
    · rw [if_pos hp] at h
      exact absurd h (by simp)
    rw [if_neg hp] at h ⊢
    cases ul with
    | none => rfl
    | some l =>
      cases hh : (uidPduOf req).head? with
      | none =>
        simp only [hh] at h
        exact absurd h (by simp)
      | some uid =>
        simp only [hh] at h ⊢
        by_cases hin : uid ∈ l
        · rw [if_pos hin] at h ⊢
        · rw [if_neg hin] at h
          exact absurd h (by simp)

lemma TCPServer.connPhase_ok_some (ul : Option (List Nat))
    (dec : List Nat → Except MbExc Unit) (env : Env) (s : TCPServer)
    (idx : Nat) (cur : Sock) (r : ReqData)
    (h : (TCPServer.connPhase ul dec env s idx cur).res = .ok (some r)) :
    cur.connected = true ∧
    TCPServer.connPhase ul dec env s idx cur =
      TCPServer.recvPhase ul dec env s := by
  unfold TCPServer.connPhase at h ⊢
  by_cases hc : cur.connected = false
  · rw [if_pos hc] at h
    by_cases hcl : cur.socketClosed = true
    · rw [if_pos hcl] at h
      exact absurd h (by simp)
    · rw [if_neg hcl] at h
      exact absurd h (by simp)
  · rw [if_neg hc] at h ⊢
    exact ⟨by simpa using hc, rfl⟩

lemma TCPServer.linkPhase_ok_some (ul : Option (List Nat))
    (dec : List Nat → Except MbExc Unit) (env : Env) (s : TCPServer)
    (idx : Nat) (cur : Sock) (r : ReqData)
    (h : (TCPServer.linkPhase ul dec env s idx cur).res = .ok (some r)) :
    env.linkStatus = true ∧
    TCPServer.linkPhase ul dec env s idx cur =
      TCPServer.connPhase ul dec env { s with linkTimestamp := env.now } idx cur := by
  unfold TCPServer.linkPhase at h ⊢
  by_cases hl : env.linkStatus = false
  · rw [if_pos hl] at h
    by_cases hg : env.now - s.linkTimestamp ≥ 5
    · rw [if_pos hg] at h
      by_cases hcl : cur.socketClosed = false
      · rw [if_pos hcl] at h
        exact absurd h (by simp)
      · rw [if_neg hcl] at h
        exact absurd h (by simp)
    · rw [if_neg hg] at h
      exact absurd h (by simp)
  · rw [if_neg hl] at h ⊢
    exact ⟨by simpa using hl, rfl⟩

lemma TCPServer.get_request_ok_some (env : Env) (ul : Option (List Nat))
    (dec : List Nat → Except MbExc Unit) (s : TCPServer) (r : ReqData)
    (h : (TCPServer.get_request env ul dec s).res = .ok (some r)) :
    ∃ sock, s.socklist[s.socknum]? = some (some sock) ∧
      TCPServer.get_request env ul dec s =
        TCPServer.linkPhase ul dec env
          { s with socknum := TCPServer.advanceCursor s.socknum s.socklist.length
                   currentSock := some sock } s.socknum sock := by
  unfold TCPServer.get_request at h ⊢
  cases hx : s.socklist[s.socknum]? with
  | none =>
    simp only [hx] at h
    exact absurd h (by simp)
  | some curOpt =>
    simp only [hx] at h ⊢
    cases curOpt with
    | none => exact absurd h (by simp)
    | some cur => exact ⟨cur, rfl, rfl⟩

/-- C2: whenever `get_request` returns a parsed request, the transaction id
recorded in the server state equals the transaction id of the received frame,
the retained current socket is exactly the pool socket the frame arrived on,
and every response subsequently emitted through `send_response` or
`send_exception_response` carries that transaction id in its MBAP header and
is written to that same socket — whatever the size of the round-robin pool. -/
theorem get_request_response_correlation (env : Env) (ul : Option (List Nat))
    (dec : List Nat → Except MbExc Unit) (s : TCPServer) (r : ReqData)
    (h : (TCPServer.get_request env ul dec s).res = .ok (some r)) :
    ∃ frame sock,
      env.recvResult = some frame ∧
      s.socklist[s.socknum]? = some (some sock) ∧
      (TCPServer.get_request env ul dec s).st.reqTid = tidOf frame ∧
      (TCPServer.get_request env ul dec s).st.currentSock = some sock ∧
      (∀ sa fc a q vals,
        TCPServer.send_response (TCPServer.get_request env ul dec s).st
            sa fc a q vals =
          some (Event.send sock.sid
            (mkAdu (tidOf frame) sa (TCPServer.functions_response fc a q vals)))) ∧
      (∀ sa fc ec,
        TCPServer.send_exception_response (TCPServer.get_request env ul dec s).st
            sa fc ec =
          some (Event.send sock.sid
            (mkAdu (tidOf frame) sa (TCPServer.exception_response fc ec)))) := by
  obtain ⟨sock, hsock, heq⟩ := TCPServer.get_request_ok_some env ul dec s r h
  rw [heq] at h
  obtain ⟨hlink, heq2⟩ := TCPServer.linkPhase_ok_some ul dec env _ _ _ r h
  rw [heq2] at h heq
  obtain ⟨hconn, heq3⟩ := TCPServer.connPhase_ok_some ul dec env _ _ _ r h
  rw [heq3] at h heq
  obtain ⟨frame, henv, heq4⟩ := TCPServer.recvPhase_ok_some ul dec env _ r h
  rw [heq4] at heq
  refine ⟨frame, sock, henv, hsock, ?_, ?_, ?_, ?_⟩
  · rw [heq, TCPServer.decodePhase_st]
  · rw [heq, TCPServer.decodePhase_st]
  · intro sa fc a q vals
    rw [heq, TCPServer.decodePhase_st]
    rfl
  · intro sa fc ec
    rw [heq, TCPServer.decodePhase_st]
    rfl

/-- C2 witness: a concrete Read-Input-Registers frame with transaction id 7
arriving on the pool socket with id 2: the parsed request leaves `_req_tid = 7`
and a later exception response goes out on socket 2 with transaction id 7. -/
theorem get_request_response_correlation_witness :
    (TCPServer.get_request ⟨true, 3, some [0, 7, 0, 0, 0, 6, 255, 4, 1, 0, 0, 1]⟩
      none specDecodePdu
      ⟨[some ⟨2, true, false⟩], 0, none, 0, 0, true, 1⟩).st.reqTid = 7
    ∧ TCPServer.send_exception_response
        (TCPServer.get_request ⟨true, 3, some [0, 7, 0, 0, 0, 6, 255, 4, 1, 0, 0, 1]⟩
          none specDecodePdu
          ⟨[some ⟨2, true, false⟩], 0, none, 0, 0, true, 1⟩).st 255 4 2
      = some (Event.send 2 (mkAdu 7 255 (TCPServer.exception_response 4 2))) := by
  obtain ⟨frame, sock, henv, hsock, htid, hcur, hresp, hexc⟩ :=
    get_request_response_correlation
      ⟨true, 3, some [0, 7, 0, 0, 0, 6, 255, 4, 1, 0, 0, 1]⟩ none specDecodePdu
      ⟨[some ⟨2, true, false⟩], 0, none, 0, 0, true, 1⟩ ⟨[255, 4, 1, 0, 0, 1]⟩
      (by decide)
  have hframe : frame = [0, 7, 0, 0, 0, 6, 255, 4, 1, 0, 0, 1] := by
    injection henv with he
    exact he.symm
  have hsid : sock.sid = 2 := by
    injection hsock with h1
    injection h1 with h2
    rw [← h2]
  subst hframe
  refine ⟨by rw [htid]; decide, ?_⟩
  have := hexc 255 4 2
  rw [hsid] at this
  exact this

/-- C4: a received frame whose PDU fails to decode (the `Request` constructor
raises `ModbusException`) makes `get_request` send exactly one exception
response to the socket the frame arrived on and return `None`; no register
table access and no hook invocation occurs for that frame (the emitted event
list holds the one send and nothing else). -/
theorem get_request_decode_failure_exception (env : Env) (ul : Option (List Nat))
    (dec : List Nat → Except MbExc Unit) (s : TCPServer) (sock : Sock)
    (frame : List Nat) (e : MbExc)
    (hsock : s.socklist[s.socknum]? = some (some sock))
    (hlink : env.linkStatus = true)
    (hconn : sock.connected = true)
    (hrecv : env.recvResult = some frame)
    (hlen : 6 ≤ frame.length)
    (hpid : pidOf frame = 0)
    (hul : ul = none ∨ ∃ l u, ul = some l ∧ (uidPduOf frame).head? = some u ∧ u ∈ l)
    (hdec : dec (uidPduOf frame) = .error e) :
    (TCPServer.get_request env ul dec s).res = .ok none ∧
    (TCPServer.get_request env ul dec s).evs =
      [Event.send sock.sid (mkAdu (tidOf frame) (byte frame 0)
          (TCPServer.exception_response e.function_code e.exception_code))] ∧
    ∀ sp a, Event.tableAccess sp a ∉ (TCPServer.get_request env ul dec s).evs := by
  have h0 : ¬ frame.length = 0 := by omega
  have h6 : ¬ frame.length < 6 := by omega
  have hp : ¬ pidOf frame ≠ 0 := by omega
  unfold TCPServer.get_request TCPServer.linkPhase TCPServer.connPhase
    TCPServer.recvPhase TCPServer.decodePhase
  rw [hsock]
  rcases hul with hn | ⟨l, u, hueq, hhead, huin⟩
  · subst hn
    simp [hlink, hconn, hrecv, h0, h6, hp, hdec, TCPServer.send_exception_response,
      TCPServer._send]
  · subst hueq
    simp [hlink, hconn, hrecv, h0, h6, hp, hhead, huin, hdec,
      TCPServer.send_exception_response, TCPServer._send]

/-- C4 witness: a concrete frame carrying the unsupported function code 42
draws a single exception response on the originating socket and a `None`
result, with no register-table event. -/
theorem get_request_decode_failure_exception_witness :
    (TCPServer.get_request ⟨true, 2, some [0, 9, 0, 0, 0, 2, 255, 42]⟩ none
      specDecodePdu ⟨[some ⟨3, true, false⟩], 0, none, 0, 0, true, 1⟩).res
      = .ok none
    ∧ (TCPServer.get_request ⟨true, 2, some [0, 9, 0, 0, 0, 2, 255, 42]⟩ none
      specDecodePdu ⟨[some ⟨3, true, false⟩], 0, none, 0, 0, true, 1⟩).evs
      = [Event.send 3 (mkAdu 9 0 (TCPServer.exception_response 42 1))] := by
  have h := get_request_decode_failure_exception
    ⟨true, 2, some [0, 9, 0, 0, 0, 2, 255, 42]⟩ none specDecodePdu
    ⟨[some ⟨3, true, false⟩], 0, none, 0, 0, true, 1⟩ ⟨3, true, false⟩
    [0, 9, 0, 0, 0, 2, 255, 42] ⟨42, 1⟩
    rfl rfl rfl rfl (by decide) (by decide) (Or.inl rfl) (by decide)
  exact ⟨h.1, h.2.1⟩

/-! ## Claims about the HAL and the register-map callbacks -/

/-- C9: `Hal.en_counter c` returns `True` exactly when `c` is one of
{1,3,5,7,9} and that channel's counter is currently `None`, and otherwise
returns `False` leaving the counter state unchanged; `Hal.dis_counter c`
returns `True` exactly when `c` is one of {1,3,5,7,9} and that channel's
counter is not `None`, otherwise `False` with the state unchanged; hence a
second consecutive `en_counter c` (or `dis_counter c`) returns `False`. -/
theorem en_dis_counter_toggle (c : Int) (h : HalState) :
    ((Hal.en_counter c h).1 = true ↔
      ((c = 1 ∨ c = 3 ∨ c = 5 ∨ c = 7 ∨ c = 9) ∧ Hal.halCount h c = none))
    ∧ ((Hal.en_counter c h).1 = false → (Hal.en_counter c h).2 = h)
    ∧ ((Hal.dis_counter c h).1 = true ↔
      ((c = 1 ∨ c = 3 ∨ c = 5 ∨ c = 7 ∨ c = 9) ∧ Hal.halCount h c ≠ none))
    ∧ ((Hal.dis_counter c h).1 = false → (Hal.dis_counter c h).2 = h)
    ∧ (Hal.en_counter c (Hal.en_counter c h).2).1 = false
    ∧ (Hal.dis_counter c (Hal.dis_counter c h).2).1 = false := by
  by_cases h1 : c = 1
  · subst h1
    cases hc : h.count1 <;>
      simp [Hal.en_counter, Hal.dis_counter, Hal.halCount, hc]
  by_cases h3 : c = 3
  · subst h3
    cases hc : h.count3 <;>
      simp [Hal.en_counter, Hal.dis_counter, Hal.halCount, hc]
  by_cases h5 : c = 5
  · subst h5
    cases hc : h.count5 <;>
      simp [Hal.en_counter, Hal.dis_counter, Hal.halCount, hc]
  by_cases h7 : c = 7
  · subst h7
    cases hc : h.count7 <;>
      simp [Hal.en_counter, Hal.dis_counter, Hal.halCount, hc]
  by_cases h9 : c = 9
  · subst h9
    cases hc : h.count9 <;>
      simp [Hal.en_counter, Hal.dis_counter, Hal.halCount, hc]
  simp [Hal.en_counter, Hal.dis_counter, h1, h3, h5, h7, h9]

/-- C9 witness: on the all-disabled HAL state, enabling channel 3 succeeds,
enabling it again fails, and disabling it while disabled fails and changes
nothing. -/
theorem en_dis_counter_toggle_witness :
    (Hal.en_counter 3 ⟨none, none, none, none, none, 0, 0, 0, 0⟩).1 = true
    ∧ (Hal.en_counter 3
        (Hal.en_counter 3 ⟨none, none, none, none, none, 0, 0, 0, 0⟩).2).1 = false
    ∧ (Hal.dis_counter 3 ⟨none, none, none, none, none, 0, 0, 0, 0⟩).1 = false
    ∧ (Hal.dis_counter 3 ⟨none, none, none, none, none, 0, 0, 0, 0⟩).2 =
        ⟨none, none, none, none, none, 0, 0, 0, 0⟩ := by
  have h := en_dis_counter_toggle 3 ⟨none, none, none, none, none, 0, 0, 0, 0⟩
  have hdisf : (Hal.dis_counter 3 ⟨none, none, none, none, none, 0, 0, 0, 0⟩).1
      = false := by
    have hnt : ¬ (Hal.dis_counter 3
        ⟨none, none, none, none, none, 0, 0, 0, 0⟩).1 = true := by
      rw [h.2.2.1]
      simp [Hal.halCount]
    simpa using hnt
  exact ⟨h.1.mpr ⟨by simp, rfl⟩, h.2.2.2.2.1, hdisf, h.2.2.2.1 hdisf⟩

lemma set_ireg_pair (r : RegState) (a x y : Nat) :
    (set_ireg r a [x, y]).iregs a = x ∧
    (set_ireg r a [x, y]).iregs (a + 1) = y ∧
    (set_ireg r a [x, y]).coils = r.coils ∧
    ∀ b, b ≠ a → b ≠ a + 1 → (set_ireg r a [x, y]).iregs b = r.iregs b := by
  have hne : ¬ (a = a + 1) := by omega
  refine ⟨?_, ?_, rfl, ?_⟩
  · simp [set_ireg, setWords, hne]
  · simp [set_ireg, setWords]
  · intro b hb1 hb2
    simp [set_ireg, setWords, hb1, hb2]

lemma counterGetStep_ok_inv (ch : Int) (enA hA : Nat) (t t' : IocState)
    (h : Ioc.counterGetStep ch enA hA t = .ok t') :
    t'.regs.coils = t.regs.coils ∧ t'.hal = t.hal ∧
    ∀ a, a ≠ hA → a ≠ hA + 1 → t'.regs.iregs a = t.regs.iregs a := by
  unfold Ioc.counterGetStep at h
  by_cases hc : get_coil t.regs enA = 1
  · rw [if_pos hc] at h
    cases hcv : Hal.halCount t.hal ch with
    | none =>
      rw [hcv] at h
      exact absurd h (by simp)
    | some c =>
      rw [hcv] at h
      injection h with h
      subst h
      exact ⟨rfl, rfl, fun a h1 h2 =>
        (set_ireg_pair t.regs hA _ _).2.2.2 a h1 h2⟩
  · rw [if_neg hc] at h
    injection h with h
    subst h
    exact ⟨rfl, rfl, fun _ _ _ => rfl⟩

lemma counterGetStep_writes (ch : Int) (enA hA : Nat) (t : IocState) (c : Nat)
    (hc : get_coil t.regs enA = 1) (hcv : Hal.halCount t.hal ch = some c) :
    Ioc.counterGetStep ch enA hA t =
      .ok { t with regs := set_ireg t.regs hA [c >>> 8, c &&& 0xffff] } := by
  unfold Ioc.counterGetStep
  rw [if_pos hc, hcv]

lemma counterGetStep_fails (ch : Int) (enA hA : Nat) (t : IocState)
    (hc : get_coil t.regs enA = 1) (hcv : Hal.halCount t.hal ch = none) :
    Ioc.counterGetStep ch enA hA t = .error t := by
  unfold Ioc.counterGetStep
  rw [if_pos hc, hcv]

lemma counterGetStep_skip (ch : Int) (enA hA : Nat) (t : IocState)
    (hc : ¬ get_coil t.regs enA = 1) :
    Ioc.counterGetStep ch enA hA t = .ok t := by
  unfold Ioc.counterGetStep
  rw [if_neg hc]

lemma get_coil_congr (r r' : RegState) (a : Nat) (h : r'.coils = r.coils) :
    get_coil r' a = get_coil r a := by
  unfold get_coil
  rw [h]

lemma shiftRight_8_ne_16 (c : Nat) (hc : 2 ^ 16 ≤ c) : c >>> 8 ≠ c >>> 16 := by
  have h1 : c >>> 8 = c / 256 := by
    rw [Nat.shiftRight_eq_div_pow]
  have h2 : c >>> 16 = c / 256 / 256 := by
    rw [Nat.shiftRight_eq_div_pow, Nat.div_div_eq_div_mul]
  have h3 : 256 ≤ c / 256 := by
    rw [Nat.le_div_iff_mul_le (by norm_num : 0 < 256)]
    calc 256 * 256 = 2 ^ 16 := by norm_num
    _ ≤ c := hc
  have h4 : c / 256 / 256 < c / 256 :=
    Nat.div_lt_self (by omega) (by norm_num)
  rw [h1, h2]
  omega

/-- C1: for every counter channel in {1,3,5,9,7} whose enable coil reads 1,
`counter_get_cb` stores the pair `[count >> 8, count & 0xffff]` in that
channel's two counter-value input registers — the high word is the count
shifted right by 8, not 16 — and whenever `count ≥ 2^16` this pair differs
from the standard 32-bit split `[count >> 16, count & 0xffff]`. -/
theorem counter_get_cb_shift8_packing (s s' : IocState)
    (h : Ioc.counter_get_cb s = .ok s') (ch : Int) (hch : ch ∈ chanList)
    (hcoil : get_coil s.regs (countEnAdd ch) = 1) :
    ∃ c, Hal.halCount s.hal ch = some c ∧
      s'.regs.iregs (countHAdd ch) = c >>> 8 ∧
      s'.regs.iregs (countHAdd ch + 1) = c &&& 0xffff ∧
      (2 ^ 16 ≤ c → [c >>> 8, c &&& 0xffff] ≠ [c >>> 16, c &&& 0xffff]) := by
  unfold Ioc.counter_get_cb at h
  cases h1 : Ioc.counterGetStep 1 COUNT1_EN_ADD COUNT1_H_ADD s with
  | error e => simp only [h1] at h; exact absurd h (by simp)
  | ok s1 =>
  simp only [h1] at h
  cases h2 : Ioc.counterGetStep 3 COUNT3_EN_ADD COUNT3_H_ADD s1 with
  | error e => simp only [h2] at h; exact absurd h (by simp)
  | ok s2 =>
  simp only [h2] at h
  cases h3 : Ioc.counterGetStep 5 COUNT5_EN_ADD COUNT5_H_ADD s2 with
  | error e => simp only [h3] at h; exact absurd h (by simp)
  | ok s3 =>
  simp only [h3] at h
  cases h4 : Ioc.counterGetStep 7 COUNT7_EN_ADD COUNT7_H_ADD s3 with
  | error e => simp only [h4] at h; exact absurd h (by simp)
  | ok s4 =>
  simp only [h4] at h
  have i1 := counterGetStep_ok_inv 1 _ _ _ _ h1
  have i2 := counterGetStep_ok_inv 3 _ _ _ _ h2
  have i3 := counterGetStep_ok_inv 5 _ _ _ _ h3
  have i4 := counterGetStep_ok_inv 7 _ _ _ _ h4
  have i5 := counterGetStep_ok_inv 9 _ _ _ _ h
  simp only [chanList, List.mem_cons, List.not_mem_nil, or_false] at hch
  rcases hch with rfl | rfl | rfl | rfl | rfl
  · simp only [countEnAdd] at hcoil
    simp only [countHAdd]
    cases hcv : Hal.halCount s.hal 1 with
    | none =>
      rw [counterGetStep_fails 1 _ _ s hcoil hcv] at h1
      exact absurd h1 (by simp)
    | some c =>
      rw [counterGetStep_writes 1 _ _ s c hcoil hcv] at h1
      injection h1 with h1
      refine ⟨c, rfl, ?_, ?_, fun h16 heq => by
        injection heq with ha _
        exact shiftRight_8_ne_16 c h16 ha⟩
      · rw [i5.2.2 _ (by decide) (by decide), i4.2.2 _ (by decide) (by decide),
          i3.2.2 _ (by decide) (by decide), i2.2.2 _ (by decide) (by decide),
          ← h1]
        exact (set_ireg_pair s.regs COUNT1_H_ADD _ _).1
      · rw [i5.2.2 _ (by decide) (by decide), i4.2.2 _ (by decide) (by decide),
          i3.2.2 _ (by decide) (by decide), i2.2.2 _ (by decide) (by decide),
          ← h1]
        exact (set_ireg_pair s.regs COUNT1_H_ADD _ _).2.1
  · simp only [countEnAdd] at hcoil
    simp only [countHAdd]
    have hc1 : get_coil s1.regs COUNT3_EN_ADD = 1 := by
      rw [get_coil_congr _ _ _ i1.1]; exact hcoil
    cases hcv : Hal.halCount s.hal 3 with
    | none =>
      have hcv1 : Hal.halCount s1.hal 3 = none := by rw [i1.2.1]; exact hcv
      rw [counterGetStep_fails 3 _ _ s1 hc1 hcv1] at h2
      exact absurd h2 (by simp)
    | some c =>
      have hcv1 : Hal.halCount s1.hal 3 = some c := by rw [i1.2.1]; exact hcv
      rw [counterGetStep_writes 3 _ _ s1 c hc1 hcv1] at h2
      injection h2 with h2
      refine ⟨c, rfl, ?_, ?_, fun h16 heq => by
        injection heq with ha _
        exact shiftRight_8_ne_16 c h16 ha⟩
      · rw [i5.2.2 _ (by decide) (by decide), i4.2.2 _ (by decide) (by decide),
          i3.2.2 _ (by decide) (by decide), ← h2]
        exact (set_ireg_pair s1.regs COUNT3_H_ADD _ _).1
      · rw [i5.2.2 _ (by decide) (by decide), i4.2.2 _ (by decide) (by decide),
          i3.2.2 _ (by decide) (by decide), ← h2]
        exact (set_ireg_pair s1.regs COUNT3_H_ADD _ _).2.1
  · simp only [countEnAdd] at hcoil
    simp only [countHAdd]
    have hc2 : get_coil s2.regs COUNT5_EN_ADD = 1 := by
      rw [get_coil_congr _ _ _ i2.1, get_coil_congr _ _ _ i1.1]; exact hcoil
    cases hcv : Hal.halCount s.hal 5 with
    | none =>
      have hcv2 : Hal.halCount s2.hal 5 = none := by
        rw [i2.2.1, i1.2.1]; exact hcv
      rw [counterGetStep_fails 5 _ _ s2 hc2 hcv2] at h3
      exact absurd h3 (by simp)
    | some c =>
      have hcv2 : Hal.halCount s2.hal 5 = some c := by
        rw [i2.2.1, i1.2.1]; exact hcv
      rw [counterGetStep_writes 5 _ _ s2 c hc2 hcv2] at h3
      injection h3 with h3
      refine ⟨c, rfl, ?_, ?_, fun h16 heq => by
        injection heq with ha _
        exact shiftRight_8_ne_16 c h16 ha⟩
      · rw [i5.2.2 _ (by decide) (by decide), i4.2.2 _ (by decide) (by decide),
          ← h3]
        exact (set_ireg_pair s2.regs COUNT5_H_ADD _ _).1
      · rw [i5.2.2 _ (by decide) (by decide), i4.2.2 _ (by decide) (by decide),
          ← h3]
        exact (set_ireg_pair s2.regs COUNT5_H_ADD _ _).2.1
  · simp only [countEnAdd] at hcoil
    simp only [countHAdd]
    have hc3 : get_coil s3.regs COUNT7_EN_ADD = 1 := by
      rw [get_coil_congr _ _ _ i3.1, get_coil_congr _ _ _ i2.1,
        get_coil_congr _ _ _ i1.1]
      exact hcoil
    cases hcv : Hal.halCount s.hal 7 with
    | none =>
      have hcv3 : Hal.halCount s3.hal 7 = none := by
        rw [i3.2.1, i2.2.1, i1.2.1]; exact hcv
      rw [counterGetStep_fails 7 _ _ s3 hc3 hcv3] at h4
      exact absurd h4 (by simp)
    | some c =>
      have hcv3 : Hal.halCount s3.hal 7 = some c := by
        rw [i3.2.1, i2.2.1, i1.2.1]; exact hcv
      rw [counterGetStep_writes 7 _ _ s3 c hc3 hcv3] at h4
      injection h4 with h4
      refine ⟨c, rfl, ?_, ?_, fun h16 heq => by
        injection heq with ha _
        exact shiftRight_8_ne_16 c h16 ha⟩
      · rw [i5.2.2 _ (by decide) (by decide), ← h4]
        exact (set_ireg_pair s3.regs COUNT7_H_ADD _ _).1
      · rw [i5.2.2 _ (by decide) (by decide), ← h4]
        exact (set_ireg_pair s3.regs COUNT7_H_ADD _ _).2.1
  · simp only [countEnAdd] at hcoil
    simp only [countHAdd]
    have hc4 : get_coil s4.regs COUNT9_EN_ADD = 1 := by
      rw [get_coil_congr _ _ _ i4.1, get_coil_congr _ _ _ i3.1,
        get_coil_congr _ _ _ i2.1, get_coil_congr _ _ _ i1.1]
      exact hcoil
    cases hcv : Hal.halCount s.hal 9 with
    | none =>
      have hcv4 : Hal.halCount s4.hal 9 = none := by
        rw [i4.2.1, i3.2.1, i2.2.1, i1.2.1]; exact hcv
      rw [counterGetStep_fails 9 _ _ s4 hc4 hcv4] at h
      exact absurd h (by simp)
    | some c =>
      have hcv4 : Hal.halCount s4.hal 9 = some c := by
        rw [i4.2.1, i3.2.1, i2.2.1, i1.2.1]; exact hcv
      rw [counterGetStep_writes 9 _ _ s4 c hc4 hcv4] at h
      injection h with h
      refine ⟨c, rfl, ?_, ?_, fun h16 heq => by
        injection heq with ha _
        exact shiftRight_8_ne_16 c h16 ha⟩
      · rw [← h]
        exact (set_ireg_pair s4.regs COUNT9_H_ADD _ _).1
      · rw [← h]
        exact (set_ireg_pair s4.regs COUNT9_H_ADD _ _).2.1

/-- C1 witness: with counter 1 enabled (coil 0x0300 set) and a hardware count
of 70000 (≥ 2^16), `counter_get_cb` stores `[70000 >> 8, 70000 & 0xffff]` =
`[273, 4464]`, which differs from the standard split `[70000 >> 16, 4464]`. -/
theorem counter_get_cb_shift8_packing_witness :
    ∃ s', Ioc.counter_get_cb
        ⟨⟨fun a => a == 0x0300, fun _ => 0⟩,
         ⟨some 70000, none, none, none, none, 0, 0, 0, 0⟩⟩ = .ok s' ∧
      s'.regs.iregs 0x0400 = 70000 >>> 8 ∧
      s'.regs.iregs 0x0401 = 70000 &&& 0xffff ∧
      [(70000 : Nat) >>> 8, 70000 &&& 0xffff] ≠ [70000 >>> 16, 70000 &&& 0xffff] := by
  have hok : (Ioc.counter_get_cb
      ⟨⟨fun a => a == 0x0300, fun _ => 0⟩,
       ⟨some 70000, none, none, none, none, 0, 0, 0, 0⟩⟩).isOk = true := by
    decide
  cases hgc : Ioc.counter_get_cb
      ⟨⟨fun a => a == 0x0300, fun _ => 0⟩,
       ⟨some 70000, none, none, none, none, 0, 0, 0, 0⟩⟩ with
  | error e =>
    rw [hgc] at hok
    exact absurd hok (by simp [Except.isOk, Except.toBool])
  | ok s' =>
    obtain ⟨c, hc, hH, hL, hne⟩ := counter_get_cb_shift8_packing _ s' hgc 1
      (by decide) (by decide)
    have hc70 : c = 70000 := by
      have : (some 70000 : Option Nat) = some c := hc
      injection this with h70
      exact h70.symm
    subst hc70
    exact ⟨s', rfl, hH, hL, hne (by norm_num)⟩

lemma counterRstStep_ok_facts (ch : Int) (rA hA : Nat) (t t' : IocState)
    (h : Ioc.counterRstStep ch rA hA t = .ok t') :
    t'.regs.coils rA = false ∧
    (∀ a, a ≠ rA → t'.regs.coils a = t.regs.coils a) ∧
    (t.regs.coils rA = true →
      t'.regs.iregs hA = 0 ∧ t'.regs.iregs (hA + 1) = 0) ∧
    (∀ a, a ≠ hA → a ≠ hA + 1 → t'.regs.iregs a = t.regs.iregs a) := by
  unfold Ioc.counterRstStep at h
  by_cases hc : get_coil t.regs rA = 1
  · rw [if_pos hc] at h
    cases hcv : Hal.halCount t.hal ch with
    | none =>
      rw [hcv] at h
      exact absurd h (by simp)
    | some c0 =>
      rw [hcv] at h
      injection h with h
      subst h
      have hpair := set_ireg_pair (set_coil t.regs rA 0) hA 0 0
      refine ⟨?_, fun a ha => ?_, fun _ => ⟨hpair.1, hpair.2.1⟩,
        fun a h1 h2 => ?_⟩
      · rw [hpair.2.2.1]
        simp [set_coil]
      · rw [hpair.2.2.1]
        simp [set_coil, ha]
      · exact hpair.2.2.2 a h1 h2
  · rw [if_neg hc] at h
    injection h with h
    subst h
    have hfalse : t.regs.coils rA = false := by
      by_contra hb
      have htrue : t.regs.coils rA = true := by
        revert hb
        cases t.regs.coils rA <;> simp
      exact hc (by simp [get_coil, htrue])
    refine ⟨hfalse, fun _ _ => rfl, fun hcontr => ?_, fun _ _ _ => rfl⟩
    rw [hfalse] at hcontr
    exact absurd hcontr (by simp)

/-- C10: whenever `counter_rst_set_cb` runs to completion, every counter reset
coil (0x0310..0x0314) reads 0 afterwards, and each channel whose reset coil
was 1 before the hook has its counter-value input registers set to `[0, 0]` —
the reset coils are self-clearing across a completed write. -/
theorem counter_rst_self_clearing (s s' : IocState)
    (h : Ioc.counter_rst_set_cb s = .ok s') :
    (∀ ch ∈ chanList, s'.regs.coils (countRstAdd ch) = false)
    ∧ (∀ ch ∈ chanList, s.regs.coils (countRstAdd ch) = true →
        s'.regs.iregs (countHAdd ch) = 0 ∧
        s'.regs.iregs (countHAdd ch + 1) = 0) := by
  unfold Ioc.counter_rst_set_cb at h
  cases h1 : Ioc.counterRstStep 1 COUNT1_RST_ADD COUNT1_H_ADD s with
  | error e => simp only [h1] at h; exact absurd h (by simp)
  | ok s1 =>
  simp only [h1] at h
  cases h2 : Ioc.counterRstStep 3 COUNT3_RST_ADD COUNT3_H_ADD s1 with
  | error e => simp only [h2] at h; exact absurd h (by simp)
  | ok s2 =>
  simp only [h2] at h
  cases h3 : Ioc.counterRstStep 5 COUNT5_RST_ADD COUNT5_H_ADD s2 with
  | error e => simp only [h3] at h; exact absurd h (by simp)
  | ok s3 =>
  simp only [h3] at h
  cases h4 : Ioc.counterRstStep 7 COUNT7_RST_ADD COUNT7_H_ADD s3 with
  | error e => simp only [h4] at h; exact absurd h (by simp)
  | ok s4 =>
  simp only [h4] at h
  have f1 := counterRstStep_ok_facts 1 _ _ _ _ h1
  have f2 := counterRstStep_ok_facts 3 _ _ _ _ h2
  have f3 := counterRstStep_ok_facts 5 _ _ _ _ h3
  have f4 := counterRstStep_ok_facts 7 _ _ _ _ h4
  have f5 := counterRstStep_ok_facts 9 _ _ _ _ h
  constructor
  · intro ch hch
    simp only [chanList, List.mem_cons, List.not_mem_nil, or_false] at hch
    rcases hch with rfl | rfl | rfl | rfl | rfl <;> simp only [countRstAdd]
    · rw [f5.2.1 _ (by decide), f4.2.1 _ (by decide), f3.2.1 _ (by decide),
        f2.2.1 _ (by decide)]
      exact f1.1
    · rw [f5.2.1 _ (by decide), f4.2.1 _ (by decide), f3.2.1 _ (by decide)]
      exact f2.1
    · rw [f5.2.1 _ (by decide), f4.2.1 _ (by decide)]
      exact f3.1
    · rw [f5.2.1 _ (by decide)]
      exact f4.1
    · exact f5.1
  · intro ch hch
    simp only [chanList, List.mem_cons, List.not_mem_nil, or_false] at hch
    rcases hch with rfl | rfl | rfl | rfl | rfl <;>
      simp only [countRstAdd, countHAdd] <;> intro hcl
    · have hp := f1.2.2.1 hcl
      refine ⟨?_, ?_⟩
      · rw [f5.2.2.2 _ (by decide) (by decide), f4.2.2.2 _ (by decide) (by decide),
          f3.2.2.2 _ (by decide) (by decide), f2.2.2.2 _ (by decide) (by decide)]
        exact hp.1
      · rw [f5.2.2.2 _ (by decide) (by decide), f4.2.2.2 _ (by decide) (by decide),
          f3.2.2.2 _ (by decide) (by decide), f2.2.2.2 _ (by decide) (by decide)]
        exact hp.2
    · have hcl1 : s1.regs.coils COUNT3_RST_ADD = true := by
        rw [f1.2.1 _ (by decide)]
        exact hcl
      have hp := f2.2.2.1 hcl1
      refine ⟨?_, ?_⟩
      · rw [f5.2.2.2 _ (by decide) (by decide), f4.2.2.2 _ (by decide) (by decide),
          f3.2.2.2 _ (by decide) (by decide)]
        exact hp.1
      · rw [f5.2.2.2 _ (by decide) (by decide), f4.2.2.2 _ (by decide) (by decide),
          f3.2.2.2 _ (by decide) (by decide)]
        exact hp.2
    · have hcl2 : s2.regs.coils COUNT5_RST_ADD = true := by
        rw [f2.2.1 _ (by decide), f1.2.1 _ (by decide)]
        exact hcl
      have hp := f3.2.2.1 hcl2
      refine ⟨?_, ?_⟩
      · rw [f5.2.2.2 _ (by decide) (by decide), f4.2.2.2 _ (by decide) (by decide)]
        exact hp.1
      · rw [f5.2.2.2 _ (by decide) (by decide), f4.2.2.2 _ (by decide) (by decide)]
        exact hp.2
    · have hcl3 : s3.regs.coils COUNT7_RST_ADD = true := by
        rw [f3.2.1 _ (by decide), f2.2.1 _ (by decide), f1.2.1 _ (by decide)]
        exact hcl
      have hp := f4.2.2.1 hcl3
      refine ⟨?_, ?_⟩
      · rw [f5.2.2.2 _ (by decide) (by decide)]
        exact hp.1
      · rw [f5.2.2.2 _ (by decide) (by decide)]
        exact hp.2
    · have hcl4 : s4.regs.coils COUNT9_RST_ADD = true := by
        rw [f4.2.1 _ (by decide), f3.2.1 _ (by decide), f2.2.1 _ (by decide),
          f1.2.1 _ (by decide)]
        exact hcl
      have hp := f5.2.2.1 hcl4
      exact ⟨hp.1, hp.2⟩

/-- C10 witness: with reset coil 0x0311 set, counter 3 enabled and stale
counter-value registers, the completed hook leaves coil 0x0311 at 0 and the
registers 0x0402..0x0403 at `[0, 0]`. -/
theorem counter_rst_self_clearing_witness :
    ∃ s', Ioc.counter_rst_set_cb
        ⟨⟨fun a => a == 0x0311, fun _ => 7⟩,
         ⟨none, some 5, none, none, none, 0, 0, 0, 0⟩⟩ = .ok s' ∧
      s'.regs.coils 0x0311 = false ∧
      s'.regs.iregs 0x0402 = 0 ∧ s'.regs.iregs 0x0403 = 0 := by
  have hok : (Ioc.counter_rst_set_cb
      ⟨⟨fun a => a == 0x0311, fun _ => 7⟩,
       ⟨none, some 5, none, none, none, 0, 0, 0, 0⟩⟩).isOk = true := by
    decide
  cases hgc : Ioc.counter_rst_set_cb
      ⟨⟨fun a => a == 0x0311, fun _ => 7⟩,
       ⟨none, some 5, none, none, none, 0, 0, 0, 0⟩⟩ with
  | error e =>
    rw [hgc] at hok
    exact absurd hok (by simp [Except.isOk, Except.toBool])
  | ok s' =>
    have hth := counter_rst_self_clearing _ s' hgc
    exact ⟨s', rfl, hth.1 3 (by decide),
      (hth.2 3 (by decide) (by decide)).1,
      (hth.2 3 (by decide) (by decide)).2⟩

lemma counterEnStep_coils (ch : Int) (enA hA : Nat) (t : IocState) :
    (Ioc.counterEnStep ch enA hA t).regs.coils = t.regs.coils := by
  unfold Ioc.counterEnStep
  split_ifs <;> rfl

lemma counterEnStep_iregs_ne (ch : Int) (enA hA : Nat) (t : IocState)
    (a : Nat) (h1 : a ≠ hA) (h2 : a ≠ hA + 1) :
    (Ioc.counterEnStep ch enA hA t).regs.iregs a = t.regs.iregs a := by
  unfold Ioc.counterEnStep
  split_ifs <;> first
    | rfl
    | exact (set_ireg_pair t.regs hA 0 0).2.2.2 a h1 h2

lemma counterEnStep_count1_ne (ch : Int) (enA hA : Nat) (t : IocState)
    (hne : ch ≠ 1) :
    (Ioc.counterEnStep ch enA hA t).hal.count1 = t.hal.count1 := by
  unfold Ioc.counterEnStep Hal.en_counter Hal.dis_counter
  split_ifs <;> simp_all

lemma counterEnStep_count3_ne (ch : Int) (enA hA : Nat) (t : IocState)
    (hne : ch ≠ 3) :
    (Ioc.counterEnStep ch enA hA t).hal.count3 = t.hal.count3 := by
  unfold Ioc.counterEnStep Hal.en_counter Hal.dis_counter
  split_ifs <;> simp_all

lemma counterEnStep_count5_ne (ch : Int) (enA hA : Nat) (t : IocState)
    (hne : ch ≠ 5) :
    (Ioc.counterEnStep ch enA hA t).hal.count5 = t.hal.count5 := by
  unfold Ioc.counterEnStep Hal.en_counter Hal.dis_counter
  split_ifs <;> simp_all

lemma counterEnStep_count7_ne (ch : Int) (enA hA : Nat) (t : IocState)
    (hne : ch ≠ 7) :
    (Ioc.counterEnStep ch enA hA t).hal.count7 = t.hal.count7 := by
  unfold Ioc.counterEnStep Hal.en_counter Hal.dis_counter
  split_ifs <;> simp_all

lemma counterEnStep_est3 (enA hA : Nat) (t : IocState)
    (hc : get_coil t.regs enA = 1) :
    ((Ioc.counterEnStep 3 enA hA t).hal.count3).isSome = true := by
  cases hcnt : t.hal.count3 <;>
    simp [Ioc.counterEnStep, Hal.en_counter, hc, hcnt]

lemma counterEnStep_est5 (enA hA : Nat) (t : IocState)
    (hc : get_coil t.regs enA = 1) :
    ((Ioc.counterEnStep 5 enA hA t).hal.count5).isSome = true := by
  cases hcnt : t.hal.count5 <;>
    simp [Ioc.counterEnStep, Hal.en_counter, hc, hcnt]

lemma counterEnStep_est7 (enA hA : Nat) (t : IocState)
    (hc : get_coil t.regs enA = 1) :
    ((Ioc.counterEnStep 7 enA hA t).hal.count7).isSome = true := by
  cases hcnt : t.hal.count7 <;>
    simp [Ioc.counterEnStep, Hal.en_counter, hc, hcnt]

lemma counterEnStep_est9 (enA hA : Nat) (t : IocState)
    (hc : get_coil t.regs enA = 1) :
    ((Ioc.counterEnStep 9 enA hA t).hal.count9).isSome = true := by
  cases hcnt : t.hal.count9 <;>
    simp [Ioc.counterEnStep, Hal.en_counter, hc, hcnt]

lemma counterGetStep_ok_exists (ch : Int) (enA hA : Nat) (t : IocState)
    (hinv : get_coil t.regs enA = 1 → (Hal.halCount t.hal ch).isSome = true) :
    ∃ t', Ioc.counterGetStep ch enA hA t = .ok t' := by
  by_cases hc : get_coil t.regs enA = 1
  · cases hcv : Hal.halCount t.hal ch with
    | none =>
      have := hinv hc
      rw [hcv] at this
      exact absurd this (by simp)
    | some c => exact ⟨_, counterGetStep_writes ch enA hA t c hc hcv⟩
  · exact ⟨t, counterGetStep_skip ch enA hA t hc⟩

/-- C7: writing 1 to coil `COUNT1_EN` (0x0300) while counter 1 is disabled
makes the on-write hook enable counter 1 in the HAL (hardware count 0) and
clear the counter-value input registers 0x0400..0x0401 to `[0, 0]`; a
subsequent `ReadInputRegisters(0x0400, 2)` returns `[0, 0]`. -/
theorem counter1_enable_clears_and_reads_zero (s : IocState)
    (h : s.hal.count1 = none) :
    ∃ s1, Ioc.writeCoil s COUNT1_EN_ADD 1 = some s1 ∧
      s1.hal.count1 = some 0 ∧
      s1.regs.iregs COUNT1_H_ADD = 0 ∧ s1.regs.iregs COUNT1_L_ADD = 0 ∧
      ∃ s2, Ioc.readInputRegisters s1 0x0400 2 = some ([0, 0], s2) := by
  have hwrite : Ioc.writeCoil s COUNT1_EN_ADD 1 =
      some (Ioc.counter_en_set_cb
        { s with regs := set_coil s.regs COUNT1_EN_ADD 1 }) := by
    simp only [Ioc.writeCoil]
    rw [if_neg (by decide), if_pos (by decide)]
  have hcoil1 : get_coil (set_coil s.regs COUNT1_EN_ADD 1) COUNT1_EN_ADD = 1 := by
    simp [get_coil, set_coil]
  have hen1 : Hal.en_counter 1 s.hal = (true, { s.hal with count1 := some 0 }) := by
    unfold Hal.en_counter
    rw [if_pos ⟨rfl, h⟩]
  set t1 : IocState :=
    Ioc.counterEnStep 1 COUNT1_EN_ADD COUNT1_H_ADD
      { s with regs := set_coil s.regs COUNT1_EN_ADD 1 } with ht1
  have hstep1 : t1 =
      { s with hal := { s.hal with count1 := some 0 },
               regs := set_ireg (set_coil s.regs COUNT1_EN_ADD 1)
                 COUNT1_H_ADD [0, 0] } := by
    rw [ht1]
    unfold Ioc.counterEnStep
    rw [if_pos hcoil1, hen1]
    simp
  set t2 : IocState := Ioc.counterEnStep 3 COUNT3_EN_ADD COUNT3_H_ADD t1 with ht2
  set t3 : IocState := Ioc.counterEnStep 5 COUNT5_EN_ADD COUNT5_H_ADD t2 with ht3
  set t4 : IocState := Ioc.counterEnStep 7 COUNT7_EN_ADD COUNT7_H_ADD t3 with ht4
  set t5 : IocState := Ioc.counterEnStep 9 COUNT9_EN_ADD COUNT9_H_ADD t4 with ht5
  have hcb : Ioc.counter_en_set_cb
      { s with regs := set_coil s.regs COUNT1_EN_ADD 1 } = t5 := by
    rw [ht5, ht4, ht3, ht2, ht1]
    rfl
  have hc1t5 : t5.hal.count1 = some 0 := by
    rw [ht5, counterEnStep_count1_ne 9 _ _ _ (by decide),
      ht4, counterEnStep_count1_ne 7 _ _ _ (by decide),
      ht3, counterEnStep_count1_ne 5 _ _ _ (by decide),
      ht2, counterEnStep_count1_ne 3 _ _ _ (by decide),
      hstep1]
  have hcoils : t5.regs.coils = (set_coil s.regs COUNT1_EN_ADD 1).coils := by
    rw [ht5, counterEnStep_coils, ht4, counterEnStep_coils,
      ht3, counterEnStep_coils, ht2, counterEnStep_coils, hstep1]
    rfl
  have hcoils2 : t2.regs.coils = (set_coil s.regs COUNT1_EN_ADD 1).coils := by
    rw [ht2, counterEnStep_coils, hstep1]
    rfl
  have hcoils3 : t3.regs.coils = (set_coil s.regs COUNT1_EN_ADD 1).coils := by
    rw [ht3, counterEnStep_coils]
    exact hcoils2
  have hcoils4 : t4.regs.coils = (set_coil s.regs COUNT1_EN_ADD 1).coils := by
    rw [ht4, counterEnStep_coils]
    exact hcoils3
  have hi400 : t5.regs.iregs COUNT1_H_ADD = 0 := by
    rw [ht5, counterEnStep_iregs_ne 9 _ _ _ _ (by decide) (by decide),
      ht4, counterEnStep_iregs_ne 7 _ _ _ _ (by decide) (by decide),
      ht3, counterEnStep_iregs_ne 5 _ _ _ _ (by decide) (by decide),
      ht2, counterEnStep_iregs_ne 3 _ _ _ _ (by decide) (by decide),
      hstep1]
    exact (set_ireg_pair (set_coil s.regs COUNT1_EN_ADD 1) COUNT1_H_ADD 0 0).1
  have hi401 : t5.regs.iregs COUNT1_L_ADD = 0 := by
    rw [ht5, counterEnStep_iregs_ne 9 _ _ _ _ (by decide) (by decide),
      ht4, counterEnStep_iregs_ne 7 _ _ _ _ (by decide) (by decide),
      ht3, counterEnStep_iregs_ne 5 _ _ _ _ (by decide) (by decide),
      ht2, counterEnStep_iregs_ne 3 _ _ _ _ (by decide) (by decide),
      hstep1]
    exact (set_ireg_pair (set_coil s.regs COUNT1_EN_ADD 1) COUNT1_H_ADD 0 0).2.1
  have hinv3 : get_coil t5.regs COUNT3_EN_ADD = 1 →
      (Hal.halCount t5.hal 3).isSome = true := by
    intro hc
    have hct1 : get_coil t1.regs COUNT3_EN_ADD = 1 := by
      unfold get_coil at hc ⊢
      rw [hstep1]
      rw [hcoils] at hc
      exact hc
    have hest : (t2.hal.count3).isSome = true := by
      rw [ht2]
      exact counterEnStep_est3 _ _ t1 hct1
    have hpres : t5.hal.count3 = t2.hal.count3 := by
      rw [ht5, counterEnStep_count3_ne 9 _ _ _ (by decide),
        ht4, counterEnStep_count3_ne 7 _ _ _ (by decide),
        ht3, counterEnStep_count3_ne 5 _ _ _ (by decide)]
    show (t5.hal.count3).isSome = true
    rw [hpres]
    exact hest
  have hinv5 : get_coil t5.regs COUNT5_EN_ADD = 1 →
      (Hal.halCount t5.hal 5).isSome = true := by
    intro hc
    have hct2 : get_coil t2.regs COUNT5_EN_ADD = 1 := by
      unfold get_coil at hc ⊢
      rw [hcoils2]
      rw [hcoils] at hc
      exact hc
    have hest : (t3.hal.count5).isSome = true := by
      rw [ht3]
      exact counterEnStep_est5 _ _ t2 hct2
    have hpres : t5.hal.count5 = t3.hal.count5 := by
      rw [ht5, counterEnStep_count5_ne 9 _ _ _ (by decide),
        ht4, counterEnStep_count5_ne 7 _ _ _ (by decide)]
    show (t5.hal.count5).isSome = true
    rw [hpres]
    exact hest
  have hinv7 : get_coil t5.regs COUNT7_EN_ADD = 1 →
      (Hal.halCount t5.hal 7).isSome = true := by
    intro hc
    have hct3 : get_coil t3.regs COUNT7_EN_ADD = 1 := by
      unfold get_coil at hc ⊢
      rw [hcoils3]
      rw [hcoils] at hc
      exact hc
    have hest : (t4.hal.count7).isSome = true := by
      rw [ht4]
      exact counterEnStep_est7 _ _ t3 hct3
    have hpres : t5.hal.count7 = t4.hal.count7 := by
      rw [ht5, counterEnStep_count7_ne 9 _ _ _ (by decide)]
    show (t5.hal.count7).isSome = true
    rw [hpres]
    exact hest
  have hinv9 : get_coil t5.regs COUNT9_EN_ADD = 1 →
      (Hal.halCount t5.hal 9).isSome = true := by
    intro hc
    have hct4 : get_coil t4.regs COUNT9_EN_ADD = 1 := by
      unfold get_coil at hc ⊢
      rw [hcoils4]
      rw [hcoils] at hc
      exact hc
    show (t5.hal.count9).isSome = true
    rw [ht5]
    exact counterEnStep_est9 _ _ t4 hct4
  have hc1get : get_coil t5.regs COUNT1_EN_ADD = 1 := by
    unfold get_coil at hcoil1 ⊢
    rw [hcoils]
    exact hcoil1
  have hcv1 : Hal.halCount t5.hal 1 = some 0 := hc1t5
  have hg1 := counterGetStep_writes 1 COUNT1_EN_ADD COUNT1_H_ADD t5 0 hc1get hcv1
  set u1 : IocState :=
    { t5 with regs := set_ireg t5.regs COUNT1_H_ADD [0 >>> 8, 0 &&& 0xffff] }
    with hu1
  obtain ⟨u2, hg2⟩ := counterGetStep_ok_exists 3 COUNT3_EN_ADD COUNT3_H_ADD u1
    (by
      intro hc
      have hc5 : get_coil t5.regs COUNT3_EN_ADD = 1 := by
        unfold get_coil at hc ⊢
        rw [hu1] at hc
        exact hc
      exact hinv3 hc5)
  have i2 := counterGetStep_ok_inv 3 _ _ _ _ hg2
  obtain ⟨u3, hg3⟩ := counterGetStep_ok_exists 5 COUNT5_EN_ADD COUNT5_H_ADD u2
    (by
      intro hc
      have hc5 : get_coil t5.regs COUNT5_EN_ADD = 1 := by
        unfold get_coil at hc ⊢
        rw [i2.1, hu1] at hc
        exact hc
      have := hinv5 hc5
      show (u2.hal.count5).isSome = true
      rw [i2.2.1, hu1]
      exact this)
  have i3 := counterGetStep_ok_inv 5 _ _ _ _ hg3
  obtain ⟨u4, hg4⟩ := counterGetStep_ok_exists 7 COUNT7_EN_ADD COUNT7_H_ADD u3
    (by
      intro hc
      have hc5 : get_coil t5.regs COUNT7_EN_ADD = 1 := by
        unfold get_coil at hc ⊢
        rw [i3.1, i2.1, hu1] at hc
        exact hc
      have := hinv7 hc5
      show (u3.hal.count7).isSome = true
      rw [i3.2.1, i2.2.1, hu1]
      exact this)
  have i4 := counterGetStep_ok_inv 7 _ _ _ _ hg4
  obtain ⟨u5, hg5⟩ := counterGetStep_ok_exists 9 COUNT9_EN_ADD COUNT9_H_ADD u4
    (by
      intro hc
      have hc5 : get_coil t5.regs COUNT9_EN_ADD = 1 := by
        unfold get_coil at hc ⊢
        rw [i4.1, i3.1, i2.1, hu1] at hc
        exact hc
      have := hinv9 hc5
      show (u4.hal.count9).isSome = true
      rw [i4.2.1, i3.2.1, i2.2.1, hu1]
      exact this)
  have i5 := counterGetStep_ok_inv 9 _ _ _ _ hg5
  have hget : Ioc.counter_get_cb t5 = .ok u5 := by
    unfold Ioc.counter_get_cb
    simp only [hg1, hg2, hg3, hg4, hg5]
  have hu1i400 : u1.regs.iregs COUNT1_H_ADD = 0 := by
    rw [hu1]
    exact (set_ireg_pair t5.regs COUNT1_H_ADD _ _).1
  have hu1i401 : u1.regs.iregs (COUNT1_H_ADD + 1) = 0 := by
    rw [hu1]
    exact (set_ireg_pair t5.regs COUNT1_H_ADD _ _).2.1
  have hu5i400 : u5.regs.iregs COUNT1_H_ADD = 0 := by
    rw [i5.2.2 _ (by decide) (by decide), i4.2.2 _ (by decide) (by decide),
      i3.2.2 _ (by decide) (by decide), i2.2.2 _ (by decide) (by decide)]
    exact hu1i400
  have hu5i401 : u5.regs.iregs (COUNT1_H_ADD + 1) = 0 := by
    rw [i5.2.2 _ (by decide) (by decide), i4.2.2 _ (by decide) (by decide),
      i3.2.2 _ (by decide) (by decide), i2.2.2 _ (by decide) (by decide)]
    exact hu1i401
  refine ⟨t5, by rw [hwrite, hcb], hc1t5, hi400, hi401, u5, ?_⟩
  unfold Ioc.readInputRegisters
  rw [if_pos (by decide)]
  rw [show (0x0400 : Nat) = COUNT1_H_ADD from rfl, hget]
  simp only [hu5i400, hu5i401]

/-- C7 witness: from the all-zero register table with every counter disabled,
writing 1 to coil 0x0300 enables counter 1, clears registers 0x0400..0x0401,
and a subsequent two-register input read at 0x0400 returns `[0, 0]`. -/
theorem counter1_enable_clears_and_reads_zero_witness :
    ∃ s1, Ioc.writeCoil
        ⟨⟨fun _ => false, fun _ => 0⟩, ⟨none, none, none, none, none, 0, 0, 0, 0⟩⟩
        COUNT1_EN_ADD 1 = some s1 ∧
      s1.hal.count1 = some 0 ∧
      s1.regs.iregs COUNT1_H_ADD = 0 ∧ s1.regs.iregs COUNT1_L_ADD = 0 ∧
      ∃ s2, Ioc.readInputRegisters s1 0x0400 2 = some ([0, 0], s2) :=
  counter1_enable_clears_and_reads_zero
    ⟨⟨fun _ => false, fun _ => 0⟩, ⟨none, none, none, none, none, 0, 0, 0, 0⟩⟩ rfl
